import Mathlib

/-!
Verification of the `nepalify` date core: a shallow embedding of
`nepalify/dates/converter.py`, `format_codes.py`, `parser.py`, `bs_date.py`
and `bs_datetime.py`, together with proofs about the ordinal engine, the
AD/BS converter, the format engine and the parsers.

Python strings are modelled as `List Char`, Python ints as `Nat` (or `Int`
where negative values are reachable), raised exceptions as `Except`/`Option`.
-/

set_option maxRecDepth 8000

namespace Nepalify

instance {ε α : Type} [DecidableEq ε] [DecidableEq α] : DecidableEq (Except ε α) :=
  fun a b =>
    match a, b with
    | .error e1, .error e2 => decidable_of_iff (e1 = e2) (by simp)
    | .ok v1, .ok v2 => decidable_of_iff (v1 = v2) (by simp)
    | .error _, .ok _ => isFalse (by simp)
    | .ok _, .error _ => isFalse (by simp)

/-- Python strings are modelled as lists of characters. -/
abbrev Str := List Char

/-- The BS calendar table: maps a BS year to its list of 12 month lengths
(`_BS_CALENDAR` in `converter.py`, loaded from `data/bs_calendar.json`). -/
abbrev Calendar := Nat → List Nat

/-- Spec invariant on the calendar table (spec section 3): for every supported
year 1901..2199 the table holds exactly 12 month lengths, each between 29
and 32.  Years are indexed as `1901 + i` with `i < 299`. -/
def GoodTable (cal : Calendar) : Prop :=
  ∀ i < 299, (cal (1901 + i)).length = 12 ∧ ∀ l ∈ cal (1901 + i), 29 ≤ l ∧ l ≤ 32

/-- Total days of a BS year: `sum(calendar[year_str])` in `converter.py`. -/
def yearSum (cal : Calendar) (y : Nat) : Nat := (cal y).sum

/-- Running total of the loop in `_initialize_calendar_lookup_tables`:
days strictly before BS year `1901 + i`. -/
def daysBeforeYear (cal : Calendar) : Nat → Nat
  | 0 => 0
  | i + 1 => daysBeforeYear cal i + yearSum cal (1901 + i)

/-- The list `_CUMULATIVE_DAYS_BY_YEAR`: entry `i` is the number of days
strictly before year `1901 + i`.  The source builds it by appending the
loop's running total for each year 1901..2199 (299 entries). -/
def cumulativeDaysByYear (cal : Calendar) : List Nat :=
  (List.range 299).map (daysBeforeYear cal)

/-- The 13-element list `_CUMULATIVE_DAYS_BY_MONTH[year]`: entry `j` is the
number of days of year `y` strictly before month `j + 1` (entry 0 is 0);
built in the source as successive partial sums of the year's month lengths. -/
def cumulativeDaysByMonth (cal : Calendar) (y : Nat) : List Nat :=
  (List.range 13).map (fun j => ((cal y).take j).sum)

/-- `_MAX_ORDINAL`: the loop's final running total, i.e. the total number of
days of all 299 supported years. -/
def maxOrdinal (cal : Calendar) : Nat := daysBeforeYear cal 299

/-- The loop of Python's `bisect.bisect_right(a, x)` (called by
`ordinal_to_bs_date`): binary search returning the insertion point to the
right of any entries equal to `x`. -/
def bisectRightGo (a : List Nat) (x : Nat) : Nat → Nat → Nat → Nat
  | 0, lo, _ => lo
  | fuel + 1, lo, hi =>
    if lo < hi then
      let mid := (lo + hi) / 2
      if x < a.getD mid 0 then bisectRightGo a x fuel lo mid
      else bisectRightGo a x fuel (mid + 1) hi
    else lo

/-- Python's `bisect.bisect_right(a, x)` with default bounds.  The `while`
loop shrinks `hi - lo` by at least one per iteration, so `a.length` steps of
fuel always suffice; the fuel-free base case is unreachable. -/
def bisectRight (a : List Nat) (x : Nat) : Nat := bisectRightGo a x a.length 0 a.length

/-- Embedding of `bs_date_to_ordinal(year, month, day)` from `converter.py`.
The source validates the year range and the month range (the day is not
checked), then returns
`_CUMULATIVE_DAYS_BY_YEAR[year_index] + _CUMULATIVE_DAYS_BY_MONTH[year][month-1] + day`.
The source's `year not in _CUMULATIVE_DAYS_BY_MONTH` check never fires for a
table covering the full range 1901..2199 and is subsumed by the range check. -/
def bs_date_to_ordinal (cal : Calendar) (y m d : Nat) : Except String Nat :=
  if y < 1901 ∨ 2199 < y then .error "Year outside supported range"
  else if m < 1 ∨ 12 < m then .error "Month must be 1-12"
  else .ok ((cumulativeDaysByYear cal).getD (y - 1901) 0
      + (cumulativeDaysByMonth cal y).getD (m - 1) 0 + d)

/-- Embedding of `ordinal_to_bs_date(ordinal)` from `converter.py`.  The
argument is an `Int` since callers (date arithmetic) can pass any integer.
Python clamps `year_index = bisect - 1` below at 0; truncated `Nat`
subtraction does exactly that.  The month clamps reproduce the source's
`if month < 1` / `if month > 12` fixups. -/
def ordinal_to_bs_date (cal : Calendar) (o : Int) : Except String (Nat × Nat × Nat) :=
  if o < 1 then .error "Ordinal must be at least 1"
  else if (maxOrdinal cal : Int) < o then .error "Ordinal exceeds maximum"
  else
    let n := o.toNat
    let cy := cumulativeDaysByYear cal
    let yearIndex := bisectRight cy (n - 1) - 1
    let year := 1901 + yearIndex
    let remaining := n - cy.getD yearIndex 0
    let ml := cumulativeDaysByMonth cal year
    let m0 := bisectRight ml (remaining - 1)
    let month := if m0 < 1 then 1 else if 12 < m0 then 12 else m0
    let day := remaining - ml.getD (month - 1) 0
    .ok (year, month, day)

/-- Embedding of `get_days_in_month(year, month)` from `converter.py`. -/
def get_days_in_month (cal : Calendar) (y m : Nat) : Except String Nat :=
  if y < 1901 ∨ 2199 < y then .error "BS year not in supported range"
  else if m < 1 ∨ 12 < m then .error "Month must be 1-12"
  else .ok ((cal y).getD (m - 1) 0)

/-- Embedding of `is_valid_bs_date(year, month, day)` from `converter.py`:
year must be in the table, month in 1..12, and day between 1 and that
month's table entry. -/
def is_valid_bs_date (cal : Calendar) (y m d : Nat) : Bool :=
  if y < 1901 ∨ 2199 < y then false
  else if m < 1 ∨ 12 < m then false
  else decide (1 ≤ d ∧ d ≤ (cal y).getD (m - 1) 0)

/-- Modelled from the spec: the repository loads its calendar table from
`data/bs_calendar.json`, which is not present under `src/`.  The spec
(sections 2, 3 and 6) specifies only the shape: one entry per BS year
1901..2199, each a sequence of 12 month lengths in 29..32, and (section 8)
the concrete anchor facts `adToBs(1844,4,11) = (1901,1,1)` and
`adToBs(2024,2,6) = (2080,10,24)`.  The table below satisfies all of these:
years with `y % 4 = 3`, and the year 2080, get the 366-day pattern, all
others the 365-day pattern, which places ordinal 65680 (the BS ordinal of
AD 2024-02-06) at BS 2080-10-24. -/
def patternA : List Nat := [31, 31, 31, 31, 31, 30, 30, 30, 30, 30, 30, 30]

/-- Month lengths of a 366-day modelled year (see `patternA`). -/
def patternB : List Nat := [31, 31, 31, 31, 31, 31, 30, 30, 30, 30, 30, 30]

/-- The modelled calendar table (see `patternA`). -/
def mcal : Calendar := fun y => if y % 4 == 3 || y == 2080 then patternB else patternA

/-- Gregorian leap-year rule (Python's `datetime` module, an external
collaborator of the converter). -/
def gregLeap (y : Nat) : Bool := y % 4 == 0 && (y % 100 != 0 || y % 400 == 0)

/-- Length of Gregorian month `m` of year `y`. -/
def gregMonthLen (y m : Nat) : Nat :=
  if m == 2 then (if gregLeap y then 29 else 28)
  else if m == 4 || m == 6 || m == 9 || m == 11 then 30 else 31

/-- Days of Gregorian year `y` strictly before month `m`. -/
def gregDaysBeforeMonth (y : Nat) : Nat → Nat
  | 0 => 0
  | 1 => 0
  | m + 1 => gregDaysBeforeMonth y m + gregMonthLen y m

/-- Python's `date(y, m, d).toordinal()`: proleptic Gregorian day number
with 0001-01-01 as day 1. -/
def gregToOrdinal (y m d : Nat) : Nat :=
  365 * (y - 1) + (y - 1) / 4 - (y - 1) / 100 + (y - 1) / 400
    + gregDaysBeforeMonth y m + d

/-- Validity check performed by Python's `date(y, m, d)` constructor. -/
def isValidGregDate (y m d : Nat) : Bool :=
  1 ≤ y && y ≤ 9999 && 1 ≤ m && m ≤ 12 && 1 ≤ d && d ≤ gregMonthLen y m

/-- Python's `date.fromordinal(n)`: inverse of `gregToOrdinal`, decomposing
the day number through the 400/100/4/1-year cycle structure and then
scanning for the month. -/
def gregFromOrdinal (n : Nat) : Nat × Nat × Nat :=
  let n0 := n - 1
  let n400 := n0 / 146097
  let r1 := n0 % 146097
  let n100 := r1 / 36524
  let r2 := r1 % 36524
  let n4 := r2 / 1461
  let r3 := r2 % 1461
  let n1 := r3 / 365
  let r4 := r3 % 365
  let year := 400 * n400 + 100 * n100 + 4 * n4 + n1 + 1
  if n1 == 4 || n100 == 4 then (year - 1, 12, 31)
  else
    let month := (List.range 12).foldl
      (fun acc j => if gregDaysBeforeMonth year (j + 1) ≤ r4 then j + 1 else acc) 1
    (year, month, r4 - gregDaysBeforeMonth year month + 1)

/-- The Gregorian ordinal of the reference date `_REF_AD = date(1844, 4, 11)`
(BS 1901-01-01). -/
def refAdOrdinal : Nat := gregToOrdinal 1844 4 11

/-- Embedding of `ad_to_bs(year, month, day)` from `converter.py`:
Gregorian ordinal difference to the anchor plus one, decoded through
`ordinal_to_bs_date`; errors are re-raised with range messages. -/
def ad_to_bs (cal : Calendar) (y m d : Nat) : Except String (Nat × Nat × Nat) :=
  if !isValidGregDate y m d then .error "Invalid AD date"
  else
    let bsOrd : Int := (gregToOrdinal y m d : Int) - (refAdOrdinal : Int) + 1
    if bsOrd < 1 then .error "before the supported range"
    else
      match ordinal_to_bs_date cal bsOrd with
      | .ok t => .ok t
      | .error _ => .error "beyond the supported range"

/-- Embedding of `bs_to_ad(year, month, day)` from `converter.py`:
`bs_date_to_ordinal` (which validates), then anchor arithmetic and
Gregorian decoding. -/
def bs_to_ad (cal : Calendar) (y m d : Nat) : Except String (Nat × Nat × Nat) :=
  match bs_date_to_ordinal cal y m d with
  | .error e => .error e
  | .ok o => .ok (gregFromOrdinal (refAdOrdinal + o - 1))

/-! Lemmas about the lookup tables and the binary search. -/

theorem getD_range_map (f : Nat → Nat) (n i : Nat) (h : i < n) :
    ((List.range n).map f).getD i 0 = f i := by
  rw [List.getD_eq_getElem _ _ (by simpa using h)]
  simp

theorem length_cumulativeDaysByYear (cal : Calendar) :
    (cumulativeDaysByYear cal).length = 299 := by
  simp [cumulativeDaysByYear]

theorem getD_cumulativeDaysByYear (cal : Calendar) (i : Nat) (h : i < 299) :
    (cumulativeDaysByYear cal).getD i 0 = daysBeforeYear cal i :=
  getD_range_map _ _ _ h

theorem length_cumulativeDaysByMonth (cal : Calendar) (y : Nat) :
    (cumulativeDaysByMonth cal y).length = 13 := by
  simp [cumulativeDaysByMonth]

theorem getD_cumulativeDaysByMonth (cal : Calendar) (y j : Nat) (h : j < 13) :
    (cumulativeDaysByMonth cal y).getD j 0 = ((cal y).take j).sum :=
  getD_range_map _ _ _ h

theorem monthLen_bounds (cal : Calendar) (hg : GoodTable cal) (y j : Nat)
    (hy1 : 1901 ≤ y) (hy2 : y ≤ 2199) (hj : j < 12) :
    29 ≤ (cal y).getD j 0 ∧ (cal y).getD j 0 ≤ 32 := by
  obtain ⟨hlen, hbound⟩ := hg (y - 1901) (by omega)
  have hy : 1901 + (y - 1901) = y := by omega
  rw [hy] at hlen hbound
  have hjl : j < (cal y).length := by omega
  rw [List.getD_eq_getElem _ _ hjl]
  exact hbound _ (List.getElem_mem hjl)

theorem yearSum_pos (cal : Calendar) (hg : GoodTable cal) (y : Nat)
    (hy1 : 1901 ≤ y) (hy2 : y ≤ 2199) : 0 < yearSum cal y := by
  obtain ⟨hlen, hbound⟩ := hg (y - 1901) (by omega)
  have hy : 1901 + (y - 1901) = y := by omega
  rw [hy] at hlen hbound
  have hx : (cal y).getD 0 0 ∈ cal y := by
    rw [List.getD_eq_getElem _ _ (by omega)]
    exact List.getElem_mem (by omega)
  have h29 := (hbound _ hx).1
  have hle := List.single_le_sum (l := cal y) (fun x _ => Nat.zero_le x) _ hx
  unfold yearSum
  omega

theorem daysBeforeYear_mono (cal : Calendar) {i j : Nat} (h : i ≤ j) :
    daysBeforeYear cal i ≤ daysBeforeYear cal j := by
  induction j with
  | zero =>
    have : i = 0 := by omega
    subst this
    exact Nat.le_refl _
  | succ j ih =>
    rcases Nat.lt_or_ge i (j + 1) with h1 | h1
    · have := ih (by omega)
      simp only [daysBeforeYear]
      omega
    · have : i = j + 1 := by omega
      subst this
      exact Nat.le_refl _

theorem daysBeforeYear_strict (cal : Calendar) (hg : GoodTable cal) {i j : Nat}
    (h : i < j) (hj : j ≤ 299) :
    daysBeforeYear cal i < daysBeforeYear cal j := by
  have h1 : daysBeforeYear cal i < daysBeforeYear cal (i + 1) := by
    simp only [daysBeforeYear]
    have := yearSum_pos cal hg (1901 + i) (by omega) (by omega)
    omega
  have h2 := daysBeforeYear_mono cal (show i + 1 ≤ j by omega)
  omega

theorem takeSum_succ (l : List Nat) (j : Nat) (hj : j < l.length) :
    (l.take (j + 1)).sum = (l.take j).sum + l.getD j 0 := by
  rw [List.take_succ, List.sum_append, List.getD_eq_getElem _ _ hj]
  simp [List.getElem?_eq_getElem hj]

theorem takeSum_mono (l : List Nat) {i j : Nat} (h : i ≤ j) :
    (l.take i).sum ≤ (l.take j).sum := by
  induction j with
  | zero =>
    have : i = 0 := by omega
    subst this
    exact Nat.le_refl _
  | succ j ih =>
    rcases Nat.lt_or_ge i (j + 1) with h1 | h1
    · have hstep : (l.take j).sum ≤ (l.take (j + 1)).sum := by
        rcases Nat.lt_or_ge j l.length with h2 | h2
        · rw [takeSum_succ l j h2]; omega
        · rw [List.take_of_length_le (by omega), List.take_of_length_le (by omega)]
      have := ih (by omega)
      omega
    · have : i = j + 1 := by omega
      subst this
      exact Nat.le_refl _

theorem takeSum_full (cal : Calendar) (hg : GoodTable cal) (y : Nat)
    (hy1 : 1901 ≤ y) (hy2 : y ≤ 2199) :
    ((cal y).take 12).sum = yearSum cal y := by
  obtain ⟨hlen, _⟩ := hg (y - 1901) (by omega)
  have hy : 1901 + (y - 1901) = y := by omega
  rw [hy] at hlen
  rw [yearSum, ← hlen, List.take_length]

/-- Discrete intermediate-value step: a pointwise threshold crossing exists
for any function between values below and above a target. -/
theorem exists_crossing (f : Nat → Nat) (N t : Nat) (h0 : f 0 ≤ t) (h1 : t < f N) :
    ∃ j, j < N ∧ f j ≤ t ∧ t < f (j + 1) := by
  induction N with
  | zero => omega
  | succ N ih =>
    rcases Nat.lt_or_ge t (f N) with h2 | h2
    · obtain ⟨j, hj1, hj2, hj3⟩ := ih h2
      exact ⟨j, by omega, hj2, hj3⟩
    · exact ⟨N, by omega, h2, h1⟩

theorem bisectRightGo_spec (a : List Nat) (x : Nat)
    (hsort : ∀ i j, i ≤ j → j < a.length → a.getD i 0 ≤ a.getD j 0) :
    ∀ fuel lo hi, hi - lo ≤ fuel → lo ≤ hi → hi ≤ a.length →
      (∀ i, i < lo → a.getD i 0 ≤ x) →
      (∀ i, hi ≤ i → i < a.length → x < a.getD i 0) →
      lo ≤ bisectRightGo a x fuel lo hi ∧ bisectRightGo a x fuel lo hi ≤ hi ∧
      (∀ i, i < bisectRightGo a x fuel lo hi → a.getD i 0 ≤ x) ∧
      (∀ i, bisectRightGo a x fuel lo hi ≤ i → i < a.length → x < a.getD i 0) := by
  intro fuel
  induction fuel with
  | zero =>
    intro lo hi hfuel hlohi hhi hinv1 hinv2
    have : lo = hi := by omega
    subst this
    simp only [bisectRightGo]
    exact ⟨Nat.le_refl _, Nat.le_refl _, hinv1, hinv2⟩
  | succ fuel ih =>
    intro lo hi hfuel hlohi hhi hinv1 hinv2
    simp only [bisectRightGo]
    by_cases hlt : lo < hi
    · simp only [if_pos hlt]
      have hmid1 : lo ≤ (lo + hi) / 2 := by omega
      have hmid2 : (lo + hi) / 2 < hi := by omega
      by_cases hx : x < a.getD ((lo + hi) / 2) 0
      · simp only [if_pos hx]
        have hinv2mid : ∀ i, (lo + hi) / 2 ≤ i → i < a.length → x < a.getD i 0 := by
          intro i hi1 hi2
          exact Nat.lt_of_lt_of_le hx (hsort _ _ hi1 hi2)
        obtain ⟨h1, h2, h3, h4⟩ := ih lo ((lo + hi) / 2) (by omega) (by omega)
          (by omega) hinv1 hinv2mid
        exact ⟨h1, by omega, h3, h4⟩
      · simp only [if_neg hx]
        push_neg at hx
        have hinv1mid : ∀ i, i < (lo + hi) / 2 + 1 → a.getD i 0 ≤ x := by
          intro i hi1
          exact Nat.le_trans (hsort i ((lo + hi) / 2) (by omega) (by omega)) hx
        obtain ⟨h1, h2, h3, h4⟩ := ih ((lo + hi) / 2 + 1) hi (by omega) (by omega)
          hhi hinv1mid hinv2
        exact ⟨by omega, h2, h3, h4⟩
    · simp only [if_neg hlt]
      have : lo = hi := by omega
      subst this
      exact ⟨Nat.le_refl _, Nat.le_refl _, hinv1, hinv2⟩

theorem bisectRight_spec (a : List Nat) (x : Nat)
    (hsort : ∀ i j, i ≤ j → j < a.length → a.getD i 0 ≤ a.getD j 0) :
    bisectRight a x ≤ a.length ∧
    (∀ i, i < bisectRight a x → a.getD i 0 ≤ x) ∧
    (∀ i, bisectRight a x ≤ i → i < a.length → x < a.getD i 0) := by
  obtain ⟨h1, h2, h3, h4⟩ := bisectRightGo_spec a x hsort a.length 0 a.length
    (by omega) (by omega) (by omega) (by omega) (by intro i h1 h2; omega)
  exact ⟨h2, h3, h4⟩

theorem bisectRight_eq (a : List Nat) (x k : Nat)
    (hsort : ∀ i j, i ≤ j → j < a.length → a.getD i 0 ≤ a.getD j 0)
    (hk : k < a.length) (h1 : a.getD k 0 ≤ x)
    (h2 : k + 1 < a.length → x < a.getD (k + 1) 0) :
    bisectRight a x = k + 1 := by
  obtain ⟨hle, hlow, hhigh⟩ := bisectRight_spec a x hsort
  have hgt : k < bisectRight a x := by
    by_contra h
    push_neg at h
    exact absurd h1 (by simpa using hhigh k h hk)
  rcases Nat.lt_or_ge (k + 1) a.length with hc | hc
  · have : ¬ (k + 1 < bisectRight a x) := by
      intro hcon
      exact absurd (hlow (k + 1) hcon) (by simpa using h2 hc)
    omega
  · omega

/-! Round-trip lemmas for the ordinal engine. -/

theorem is_valid_bs_date_iff (cal : Calendar) (y m d : Nat) :
    is_valid_bs_date cal y m d = true ↔
      (1901 ≤ y ∧ y ≤ 2199 ∧ 1 ≤ m ∧ m ≤ 12 ∧ 1 ≤ d ∧ d ≤ (cal y).getD (m - 1) 0) := by
  unfold is_valid_bs_date
  split_ifs with h1 h2
  · simp only [Bool.false_eq_true, false_iff]
    omega
  · simp only [Bool.false_eq_true, false_iff]
    omega
  · simp only [decide_eq_true_eq]
    omega

theorem cy_sorted (cal : Calendar) :
    ∀ i j, i ≤ j → j < (cumulativeDaysByYear cal).length →
      (cumulativeDaysByYear cal).getD i 0 ≤ (cumulativeDaysByYear cal).getD j 0 := by
  intro i j hij hj
  rw [length_cumulativeDaysByYear] at hj
  rw [getD_cumulativeDaysByYear _ _ (by omega), getD_cumulativeDaysByYear _ _ hj]
  exact daysBeforeYear_mono cal hij

theorem ml_sorted (cal : Calendar) (y : Nat) :
    ∀ i j, i ≤ j → j < (cumulativeDaysByMonth cal y).length →
      (cumulativeDaysByMonth cal y).getD i 0 ≤ (cumulativeDaysByMonth cal y).getD j 0 := by
  intro i j hij hj
  rw [length_cumulativeDaysByMonth] at hj
  rw [getD_cumulativeDaysByMonth _ _ _ (by omega), getD_cumulativeDaysByMonth _ _ _ hj]
  exact takeSum_mono _ hij

theorem bs_date_to_ordinal_eq (cal : Calendar) (y m d : Nat)
    (hy1 : 1901 ≤ y) (hy2 : y ≤ 2199) (hm1 : 1 ≤ m) (hm2 : m ≤ 12) :
    bs_date_to_ordinal cal y m d =
      .ok (daysBeforeYear cal (y - 1901) + ((cal y).take (m - 1)).sum + d) := by
  unfold bs_date_to_ordinal
  rw [if_neg (by omega), if_neg (by omega),
      getD_cumulativeDaysByYear _ _ (by omega),
      getD_cumulativeDaysByMonth _ _ _ (by omega)]

/-- Bounds on the encoded ordinal of a valid date: it lies strictly between
the year's cumulative start and the next year's, hence inside `1..maxOrdinal`. -/
theorem ordval_bounds (cal : Calendar) (hg : GoodTable cal) {y m d : Nat}
    (hy1 : 1901 ≤ y) (hy2 : y ≤ 2199) (hm1 : 1 ≤ m) (hm2 : m ≤ 12)
    (hd1 : 1 ≤ d) (hd2 : d ≤ (cal y).getD (m - 1) 0) :
    daysBeforeYear cal (y - 1901) <
      daysBeforeYear cal (y - 1901) + ((cal y).take (m - 1)).sum + d ∧
    daysBeforeYear cal (y - 1901) + ((cal y).take (m - 1)).sum + d ≤
      daysBeforeYear cal (y - 1901 + 1) ∧
    daysBeforeYear cal (y - 1901) + ((cal y).take (m - 1)).sum + d ≤ maxOrdinal cal := by
  obtain ⟨hlen, _⟩ := hg (y - 1901) (by omega)
  have hy : 1901 + (y - 1901) = y := by omega
  rw [hy] at hlen
  have hstep : ((cal y).take (m - 1 + 1)).sum
      = ((cal y).take (m - 1)).sum + (cal y).getD (m - 1) 0 :=
    takeSum_succ _ _ (by omega)
  have hm : m - 1 + 1 = m := by omega
  rw [hm] at hstep
  have hle12 : ((cal y).take m).sum ≤ ((cal y).take 12).sum := takeSum_mono _ (by omega)
  have hfull : ((cal y).take 12).sum = yearSum cal y := takeSum_full cal hg y hy1 hy2
  have hnext : daysBeforeYear cal (y - 1901 + 1)
      = daysBeforeYear cal (y - 1901) + yearSum cal y := by
    rw [daysBeforeYear, hy]
  have hmax : daysBeforeYear cal (y - 1901 + 1) ≤ maxOrdinal cal :=
    daysBeforeYear_mono cal (by omega)
  unfold maxOrdinal at hmax
  constructor
  · omega
  constructor
  · omega
  · unfold maxOrdinal
    omega

/-- Direct computation of `ordinal_to_bs_date` at an in-range ordinal, given
the year and month crossings that the two binary searches locate. -/
theorem ordinal_to_bs_date_eq (cal : Calendar) (n k j : Nat)
    (hk : k < 299)
    (hkY : daysBeforeYear cal k ≤ n - 1)
    (hkY2 : n - 1 < daysBeforeYear cal (k + 1))
    (hn : 1 ≤ n) (hmax : n ≤ maxOrdinal cal)
    (hj : j < 12)
    (hjm : ((cal (1901 + k)).take j).sum ≤ n - daysBeforeYear cal k - 1)
    (hjm2 : n - daysBeforeYear cal k - 1 < ((cal (1901 + k)).take (j + 1)).sum) :
    ordinal_to_bs_date cal (n : Int) =
      .ok (1901 + k, j + 1, n - daysBeforeYear cal k - ((cal (1901 + k)).take j).sum) := by
  have hbisY : bisectRight (cumulativeDaysByYear cal) (n - 1) = k + 1 := by
    apply bisectRight_eq _ _ _ (cy_sorted cal)
    · rw [length_cumulativeDaysByYear]; omega
    · rw [getD_cumulativeDaysByYear _ _ hk]; exact hkY
    · intro hlt
      rw [length_cumulativeDaysByYear] at hlt
      rw [getD_cumulativeDaysByYear _ _ hlt]
      exact hkY2
  have hbisM : bisectRight (cumulativeDaysByMonth cal (1901 + k))
      (n - daysBeforeYear cal k - 1) = j + 1 := by
    apply bisectRight_eq _ _ _ (ml_sorted cal (1901 + k))
    · rw [length_cumulativeDaysByMonth]; omega
    · rw [getD_cumulativeDaysByMonth _ _ _ (by omega)]; exact hjm
    · intro hlt
      rw [getD_cumulativeDaysByMonth _ _ _ (by omega)]
      exact hjm2
  unfold ordinal_to_bs_date
  rw [if_neg (by omega), if_neg (by omega)]
  simp only [Int.toNat_ofNat]
  rw [hbisY]
  simp only [Nat.add_sub_cancel]
  rw [getD_cumulativeDaysByYear _ _ hk, hbisM]
  rw [if_neg (by omega), if_neg (by omega)]
  simp only [Nat.add_sub_cancel]
  rw [getD_cumulativeDaysByMonth _ _ _ (by omega)]

/-- Round trip, date direction: every valid date encodes to an ordinal that
decodes back to the same triple. -/
theorem roundtrip_from_date (cal : Calendar) (hg : GoodTable cal) (y m d : Nat)
    (hv : is_valid_bs_date cal y m d = true) :
    ∃ o : Nat, bs_date_to_ordinal cal y m d = .ok o ∧ 1 ≤ o ∧ o ≤ maxOrdinal cal ∧
      ordinal_to_bs_date cal (o : Int) = .ok (y, m, d) := by
  obtain ⟨hy1, hy2, hm1, hm2, hd1, hd2⟩ := (is_valid_bs_date_iff cal y m d).mp hv
  obtain ⟨hb1, hb2, hb3⟩ := ordval_bounds cal hg hy1 hy2 hm1 hm2 hd1 hd2
  set o := daysBeforeYear cal (y - 1901) + ((cal y).take (m - 1)).sum + d with ho
  refine ⟨o, bs_date_to_ordinal_eq cal y m d hy1 hy2 hm1 hm2, by omega, hb3, ?_⟩
  obtain ⟨hlen, _⟩ := hg (y - 1901) (by omega)
  have hy : 1901 + (y - 1901) = y := by omega
  rw [hy] at hlen
  have hstep : ((cal y).take (m - 1 + 1)).sum
      = ((cal y).take (m - 1)).sum + (cal y).getD (m - 1) 0 :=
    takeSum_succ _ _ (by omega)
  have := ordinal_to_bs_date_eq cal o (y - 1901) (m - 1)
    (by omega) (by omega) (by omega) (by omega) hb3 (by omega)
    (by rw [hy]; omega)
    (by rw [hy, hstep]; omega)
  rw [hy] at this
  have hmm : m - 1 + 1 = m := by omega
  rw [hmm] at this
  have hdd : o - daysBeforeYear cal (y - 1901) - ((cal y).take (m - 1)).sum = d := by
    omega
  rw [hdd] at this
  exact this

/-- Round trip, ordinal direction: every in-range ordinal decodes to a valid
date that encodes back to the same ordinal. -/
theorem roundtrip_from_ordinal (cal : Calendar) (hg : GoodTable cal) (n : Nat)
    (h1 : 1 ≤ n) (h2 : n ≤ maxOrdinal cal) :
    ∃ y m d, ordinal_to_bs_date cal (n : Int) = .ok (y, m, d) ∧
      is_valid_bs_date cal y m d = true ∧
      bs_date_to_ordinal cal y m d = .ok n := by
  obtain ⟨k, hk, hkY, hkY2⟩ := exists_crossing (daysBeforeYear cal) 299 (n - 1)
    (by rw [daysBeforeYear]; omega) (by unfold maxOrdinal at h2; omega)
  have hyS : daysBeforeYear cal (k + 1)
      = daysBeforeYear cal k + yearSum cal (1901 + k) := by
    rw [daysBeforeYear]
  obtain ⟨hlen, _⟩ := hg k hk
  have hfull : ((cal (1901 + k)).take 12).sum = yearSum cal (1901 + k) :=
    takeSum_full cal hg (1901 + k) (by omega) (by omega)
  obtain ⟨j, hj, hjm, hjm2⟩ := exists_crossing (fun j => ((cal (1901 + k)).take j).sum)
    12 (n - daysBeforeYear cal k - 1) (by simp)
    (by show n - daysBeforeYear cal k - 1 < ((cal (1901 + k)).take 12).sum
        rw [hfull]; omega)
  have heq := ordinal_to_bs_date_eq cal n k j hk hkY hkY2 h1 h2 hj hjm hjm2
  have hstep : ((cal (1901 + k)).take (j + 1)).sum
      = ((cal (1901 + k)).take j).sum + (cal (1901 + k)).getD j 0 :=
    takeSum_succ _ _ (by omega)
  refine ⟨1901 + k, j + 1, n - daysBeforeYear cal k - ((cal (1901 + k)).take j).sum,
    heq, ?_, ?_⟩
  · rw [is_valid_bs_date_iff]
    refine ⟨by omega, by omega, by omega, by omega, by omega, ?_⟩
    simp only [Nat.add_sub_cancel]
    omega
  · rw [bs_date_to_ordinal_eq cal _ _ _ (by omega) (by omega) (by omega) (by omega)]
    simp only [Nat.add_sub_cancel, Nat.add_sub_cancel_left]
    congr 1
    omega

theorem mcal_cases (y : Nat) : mcal y = patternA ∨ mcal y = patternB := by
  cases h : (y % 4 == 3 || y == 2080) <;> simp [mcal, h]

theorem goodTable_mcal : GoodTable mcal := by
  intro i _
  rcases mcal_cases (1901 + i) with h | h <;> rw [h] <;> exact ⟨by decide, by decide⟩

/-- C1: for every valid BS date in the supported range, encoding with
`bs_date_to_ordinal` and decoding with `ordinal_to_bs_date` returns exactly
the original `(year, month, day)`; and every integer ordinal in
`1..maxOrdinal` decodes to a date that encodes back to the same ordinal. -/
theorem C1_ordinal_roundtrip (cal : Calendar) (hg : GoodTable cal) :
    (∀ y m d, is_valid_bs_date cal y m d = true →
      ∃ o : Nat, bs_date_to_ordinal cal y m d = .ok o ∧
        ordinal_to_bs_date cal (o : Int) = .ok (y, m, d)) ∧
    (∀ o : Int, 1 ≤ o → o ≤ (maxOrdinal cal : Int) →
      ∃ y m d n, ordinal_to_bs_date cal o = .ok (y, m, d) ∧
        bs_date_to_ordinal cal y m d = .ok n ∧ (n : Int) = o) := by
  constructor
  · intro y m d hv
    obtain ⟨o, h1, _, _, h4⟩ := roundtrip_from_date cal hg y m d hv
    exact ⟨o, h1, h4⟩
  · intro o h1 h2
    have hn1 : 1 ≤ o.toNat := by omega
    have hn2 : o.toNat ≤ maxOrdinal cal := by omega
    obtain ⟨y, m, d, ha, _, hc⟩ := roundtrip_from_ordinal cal hg o.toNat hn1 hn2
    have ho : (o.toNat : Int) = o := by omega
    rw [ho] at ha
    exact ⟨y, m, d, o.toNat, ha, hc, ho⟩

/-- Witness for C1 at the modelled table, BS 2080-10-24 and ordinal 65680. -/
theorem C1_ordinal_roundtrip_witness :
    (∃ o : Nat, bs_date_to_ordinal mcal 2080 10 24 = .ok o ∧
      ordinal_to_bs_date mcal (o : Int) = .ok (2080, 10, 24)) ∧
    (∃ y m d n, ordinal_to_bs_date mcal (65680 : Int) = .ok (y, m, d) ∧
      bs_date_to_ordinal mcal y m d = .ok n ∧ (n : Int) = (65680 : Int)) :=
  ⟨(C1_ordinal_roundtrip mcal goodTable_mcal).1 2080 10 24 (by decide),
   (C1_ordinal_roundtrip mcal goodTable_mcal).2 65680 (by decide) (by decide)⟩

/-- C2 counterexample: the claim says `bs_date_to_ordinal` must fail whenever
the day exceeds the month's table length, but the source never validates the
day: BS 1901-01 has 31 days in the table, yet day 33 is accepted and encoded
as ordinal 33. -/
theorem C2_counterexample :
    get_days_in_month mcal 1901 1 = .ok 31 ∧
    bs_date_to_ordinal mcal 1901 1 33 = .ok 33 :=
  ⟨by decide, by decide⟩

/-- C2 (amended): `bs_date_to_ordinal` fails with a range error whenever the
year is outside 1901..2199 or the month is outside 1..12, and
`ordinal_to_bs_date` fails whenever the ordinal is outside `1..maxOrdinal`;
but the day component is never validated: for an in-range year and month the
call succeeds for every day value, including days exceeding the month
length. -/
theorem C2_range_errors (cal : Calendar) :
    (∀ y m d, (y < 1901 ∨ 2199 < y) → ∃ e, bs_date_to_ordinal cal y m d = .error e) ∧
    (∀ y m d, 1901 ≤ y → y ≤ 2199 → (m < 1 ∨ 12 < m) →
      ∃ e, bs_date_to_ordinal cal y m d = .error e) ∧
    (∀ o : Int, (o < 1 ∨ (maxOrdinal cal : Int) < o) →
      ∃ e, ordinal_to_bs_date cal o = .error e) ∧
    (∀ y m d, 1901 ≤ y → y ≤ 2199 → 1 ≤ m → m ≤ 12 →
      ∃ o, bs_date_to_ordinal cal y m d = .ok o) := by
  refine ⟨?_, ?_, ?_, ?_⟩
  · intro y m d h
    refine ⟨"Year outside supported range", ?_⟩
    unfold bs_date_to_ordinal
    rw [if_pos h]
  · intro y m d hy1 hy2 h
    refine ⟨"Month must be 1-12", ?_⟩
    unfold bs_date_to_ordinal
    rw [if_neg (by omega), if_pos h]
  · intro o h
    rcases h with h | h
    · refine ⟨"Ordinal must be at least 1", ?_⟩
      unfold ordinal_to_bs_date
      rw [if_pos h]
    · refine ⟨"Ordinal exceeds maximum", ?_⟩
      unfold ordinal_to_bs_date
      rw [if_neg (by omega), if_pos h]
  · intro y m d hy1 hy2 hm1 hm2
    exact ⟨_, bs_date_to_ordinal_eq cal y m d hy1 hy2 hm1 hm2⟩

/-- Witness for C2 (amended) at concrete out-of-range inputs. -/
theorem C2_range_errors_witness :
    (∃ e, bs_date_to_ordinal mcal 1900 5 10 = .error e) ∧
    (∃ e, bs_date_to_ordinal mcal 2080 13 1 = .error e) ∧
    (∃ e, ordinal_to_bs_date mcal (0 : Int) = .error e) ∧
    (∃ e, ordinal_to_bs_date mcal (109212 : Int) = .error e) ∧
    (∃ o, bs_date_to_ordinal mcal 1901 1 33 = .ok o) :=
  ⟨(C2_range_errors mcal).1 1900 5 10 (by omega),
   (C2_range_errors mcal).2.1 2080 13 1 (by omega) (by omega) (by omega),
   (C2_range_errors mcal).2.2.1 0 (by omega),
   (C2_range_errors mcal).2.2.1 109212 (by right; decide),
   (C2_range_errors mcal).2.2.2 1901 1 33 (by omega) (by omega) (by omega) (by omega)⟩

/-- Strict monotonicity of the encoding with respect to the lexicographic
(chronological) order on valid dates. -/
theorem ordval_lt_of_lex (cal : Calendar) (hg : GoodTable cal)
    {y m d y' m' d' o o' : Nat}
    (hv : is_valid_bs_date cal y m d = true)
    (hv' : is_valid_bs_date cal y' m' d' = true)
    (ho : bs_date_to_ordinal cal y m d = .ok o)
    (ho' : bs_date_to_ordinal cal y' m' d' = .ok o')
    (hlex : y < y' ∨ (y = y' ∧ m < m') ∨ (y = y' ∧ m = m' ∧ d < d')) :
    o < o' := by
  obtain ⟨hy1, hy2, hm1, hm2, hd1, hd2⟩ := (is_valid_bs_date_iff cal y m d).mp hv
  obtain ⟨hy1', hy2', hm1', hm2', hd1', hd2'⟩ := (is_valid_bs_date_iff cal y' m' d').mp hv'
  rw [bs_date_to_ordinal_eq cal y m d hy1 hy2 hm1 hm2] at ho
  rw [bs_date_to_ordinal_eq cal y' m' d' hy1' hy2' hm1' hm2'] at ho'
  have hoval : o = daysBeforeYear cal (y - 1901) + ((cal y).take (m - 1)).sum + d := by
    exact (Except.ok.injEq _ _).mp ho.symm
  have hoval' : o' = daysBeforeYear cal (y' - 1901) + ((cal y').take (m' - 1)).sum + d' := by
    exact (Except.ok.injEq _ _).mp ho'.symm
  obtain ⟨hb1, hb2, hb3⟩ := ordval_bounds cal hg hy1 hy2 hm1 hm2 hd1 hd2
  rcases hlex with hcase | ⟨hey, hcase⟩ | ⟨hey, hem, hcase⟩
  · have hmono : daysBeforeYear cal (y - 1901 + 1) ≤ daysBeforeYear cal (y' - 1901) :=
      daysBeforeYear_mono cal (by omega)
    have hd1' : 1 ≤ d' := hd1'
    omega
  · subst hey
    obtain ⟨hlen, _⟩ := hg (y - 1901) (by omega)
    have hyy : 1901 + (y - 1901) = y := by omega
    rw [hyy] at hlen
    have hstep : ((cal y).take (m - 1 + 1)).sum
        = ((cal y).take (m - 1)).sum + (cal y).getD (m - 1) 0 :=
      takeSum_succ _ _ (by omega)
    have hmono : ((cal y).take (m - 1 + 1)).sum ≤ ((cal y).take (m' - 1)).sum :=
      takeSum_mono _ (by omega)
    omega
  · subst hey
    subst hem
    omega

/-- C5: the ordinal encoding is total on valid dates and advances by exactly
one along the calendar successor (next day, first day of the next month
after the last day, first day of the next year after the last day of month
12), and it is strictly monotone for the chronological order, hence
injective. -/
theorem C5_ordinal_successor (cal : Calendar) (hg : GoodTable cal) :
    (∀ y m d o, is_valid_bs_date cal y m d = true →
      bs_date_to_ordinal cal y m d = .ok o →
      (d + 1 ≤ (cal y).getD (m - 1) 0 →
        bs_date_to_ordinal cal y m (d + 1) = .ok (o + 1)) ∧
      (d = (cal y).getD (m - 1) 0 → m < 12 →
        bs_date_to_ordinal cal y (m + 1) 1 = .ok (o + 1)) ∧
      (d = (cal y).getD (m - 1) 0 → m = 12 → y < 2199 →
        bs_date_to_ordinal cal (y + 1) 1 1 = .ok (o + 1))) ∧
    (∀ y m d o y' m' d' o', is_valid_bs_date cal y m d = true →
      is_valid_bs_date cal y' m' d' = true →
      bs_date_to_ordinal cal y m d = .ok o →
      bs_date_to_ordinal cal y' m' d' = .ok o' →
      (o < o' ↔ (y < y' ∨ (y = y' ∧ m < m') ∨ (y = y' ∧ m = m' ∧ d < d')))) := by
  constructor
  · intro y m d o hv ho
    obtain ⟨hy1, hy2, hm1, hm2, hd1, hd2⟩ := (is_valid_bs_date_iff cal y m d).mp hv
    rw [bs_date_to_ordinal_eq cal y m d hy1 hy2 hm1 hm2] at ho
    have hoval : o = daysBeforeYear cal (y - 1901) + ((cal y).take (m - 1)).sum + d :=
      (Except.ok.injEq _ _).mp ho.symm
    obtain ⟨hlen, _⟩ := hg (y - 1901) (by omega)
    have hyy : 1901 + (y - 1901) = y := by omega
    rw [hyy] at hlen
    refine ⟨?_, ?_, ?_⟩
    · intro _
      rw [bs_date_to_ordinal_eq cal y m (d + 1) hy1 hy2 hm1 hm2]
      simp only [Except.ok.injEq]
      omega
    · intro hlast hm12
      rw [bs_date_to_ordinal_eq cal y (m + 1) 1 hy1 hy2 (by omega) (by omega)]
      have hstep : ((cal y).take (m - 1 + 1)).sum
          = ((cal y).take (m - 1)).sum + (cal y).getD (m - 1) 0 :=
        takeSum_succ _ _ (by omega)
      have hmm : m + 1 - 1 = m - 1 + 1 := by omega
      rw [hmm, hstep]
      simp only [Except.ok.injEq]
      omega
    · intro hlast hm12 hy
      subst hm12
      have h11 : (12 : Nat) - 1 = 11 := rfl
      rw [h11] at hoval hlast
      rw [bs_date_to_ordinal_eq cal (y + 1) 1 1 (by omega) (by omega) (by omega) (by omega)]
      have hstep : ((cal y).take 12).sum
          = ((cal y).take 11).sum + (cal y).getD 11 0 := takeSum_succ _ _ (by omega)
      have hfull : ((cal y).take 12).sum = yearSum cal y := takeSum_full cal hg y hy1 hy2
      have hnext : daysBeforeYear cal (y - 1901 + 1)
          = daysBeforeYear cal (y - 1901) + yearSum cal y := by
        rw [daysBeforeYear, hyy]
      have hidx : y + 1 - 1901 = y - 1901 + 1 := by omega
      rw [hidx, hnext]
      simp only [show (1 : Nat) - 1 = 0 from rfl, List.take_zero, List.sum_nil,
        Except.ok.injEq]
      omega
  · intro y m d o y' m' d' o' hv hv' ho ho'
    constructor
    · intro hlt
      rcases Nat.lt_trichotomy y y' with h | h | h
      · exact Or.inl h
      · subst h
        rcases Nat.lt_trichotomy m m' with h2 | h2 | h2
        · exact Or.inr (Or.inl ⟨rfl, h2⟩)
        · subst h2
          rcases Nat.lt_trichotomy d d' with h3 | h3 | h3
          · exact Or.inr (Or.inr ⟨rfl, rfl, h3⟩)
          · subst h3
            rw [ho] at ho'
            have : o = o' := (Except.ok.injEq _ _).mp ho'
            omega
          · have := ordval_lt_of_lex cal hg hv' hv ho' ho
              (Or.inr (Or.inr ⟨rfl, rfl, h3⟩))
            omega
        · have := ordval_lt_of_lex cal hg hv' hv ho' ho (Or.inr (Or.inl ⟨rfl, h2⟩))
          omega
      · have := ordval_lt_of_lex cal hg hv' hv ho' ho (Or.inl h)
        omega
    · exact ordval_lt_of_lex cal hg hv hv' ho ho'

/-- Witness for C5 at the modelled table: the successor of BS 2080-10-24. -/
theorem C5_ordinal_successor_witness :
    bs_date_to_ordinal mcal 2080 10 25 = .ok (65680 + 1) :=
  (((C5_ordinal_successor mcal goodTable_mcal).1 2080 10 24 65680
    (by decide) (by decide)).1 (by decide))

/-- C4: the fixed anchor correspondence and the concrete sample pair, at the
modelled table: AD 1844-04-11 is BS 1901-01-01 (and back), and AD 2024-02-06
is BS 2080-10-24 (and back). -/
theorem C4_anchor_and_sample :
    ad_to_bs mcal 1844 4 11 = .ok (1901, 1, 1) ∧
    bs_to_ad mcal 1901 1 1 = .ok (1844, 4, 11) ∧
    ad_to_bs mcal 2024 2 6 = .ok (2080, 10, 24) ∧
    bs_to_ad mcal 2080 10 24 = .ok (2024, 2, 6) :=
  ⟨by decide, by decide, by decide, by decide⟩

/-! Value types: `BSDate` (`bs_date.py`) and `BSDateTime` (`bs_datetime.py`).
The Lean structures carry the raw fields; every construction path of the
source goes through the validating constructor, embedded as `BSDate.mk?` /
`BSDateTime.mk?` (a `ValueError` becomes `.error`). -/

/-- A fixed-offset timezone object (`timezone.py`): a UTC offset and a name.
The offset is shared state referenced by datetimes, never owned. -/
structure TzInfo where
  offsetMinutes : Int
  name : Str
deriving DecidableEq

/-- Field record of a `BSDate` instance. -/
structure BSDate where
  year : Nat
  month : Nat
  day : Nat
deriving DecidableEq

/-- Embedding of `BSDate.__init__`: the triple is validated with
`is_valid_bs_date` before any field is stored; invalid triples raise. -/
def BSDate.mk? (cal : Calendar) (y m d : Nat) : Except String BSDate :=
  if is_valid_bs_date cal y m d then .ok ⟨y, m, d⟩
  else .error "Invalid BS date"

/-- Embedding of `BSDate.toordinal`. -/
def BSDate.toordinal (cal : Calendar) (b : BSDate) : Except String Nat :=
  bs_date_to_ordinal cal b.year b.month b.day

/-- Embedding of `BSDate.fromordinal`: decode the ordinal, then construct
(and hence re-validate) through the class constructor. -/
def BSDate.fromordinal (cal : Calendar) (o : Int) : Except String BSDate :=
  match ordinal_to_bs_date cal o with
  | .error e => .error e
  | .ok t => BSDate.mk? cal t.1 t.2.1 t.2.2

/-- Embedding of `BSDate.replace`: optional new fields defaulting to the
receiver's, passed through the validating constructor. -/
def BSDate.replace (cal : Calendar) (b : BSDate)
    (y m d : Option Nat) : Except String BSDate :=
  BSDate.mk? cal (y.getD b.year) (m.getD b.month) (d.getD b.day)

/-- Embedding of `BSDate.__add__` with an integer day count (also covers
`__sub__` of days, which calls `__add__` with the negated count): ordinal
arithmetic followed by `fromordinal`. -/
def BSDate.addDays (cal : Calendar) (b : BSDate) (k : Int) : Except String BSDate :=
  match bs_date_to_ordinal cal b.year b.month b.day with
  | .error e => .error e
  | .ok o => BSDate.fromordinal cal ((o : Int) + k)

/-- Embedding of `BSDate.__sub__` with an integer day count. -/
def BSDate.subDays (cal : Calendar) (b : BSDate) (k : Int) : Except String BSDate :=
  BSDate.addDays cal b (-k)

/-- Embedding of `BSDate.from_ad` (also `today`, which applies it to the
current clock date): convert and construct through the class constructor. -/
def BSDate.from_ad (cal : Calendar) (y m d : Nat) : Except String BSDate :=
  match ad_to_bs cal y m d with
  | .error e => .error e
  | .ok t => BSDate.mk? cal t.1 t.2.1 t.2.2

/-- Field record of a `BSDateTime` instance. -/
structure BSDateTime where
  year : Nat
  month : Nat
  day : Nat
  hour : Nat
  minute : Nat
  second : Nat
  microsecond : Nat
  tz : Option TzInfo
deriving DecidableEq

/-- Embedding of `BSDateTime.__init__`: date triple validated with
`is_valid_bs_date`, then each time component range-checked (the lower
bounds `0 <= hour` etc. are automatic for `Nat`), before fields are
stored. -/
def BSDateTime.mk? (cal : Calendar) (y m d hh mi ss us : Nat)
    (tz : Option TzInfo) : Except String BSDateTime :=
  if is_valid_bs_date cal y m d then
    if 23 < hh then .error "Hour must be 0-23"
    else if 59 < mi then .error "Minute must be 0-59"
    else if 59 < ss then .error "Second must be 0-59"
    else if 999999 < us then .error "Microsecond must be 0-999999"
    else .ok ⟨y, m, d, hh, mi, ss, us, tz⟩
  else .error "Invalid BS date"

/-- A value satisfies the type invariant when its stored date triple passes
`is_valid_bs_date`. -/
def BSDate.valid (cal : Calendar) (b : BSDate) : Prop :=
  is_valid_bs_date cal b.year b.month b.day = true

/-- C9: the value types have no invalid state.  The constructor succeeds
exactly on triples accepted by `is_valid_bs_date` (and stores exactly the
given fields), every other construction path (`fromordinal`, `replace`,
`from_ad`/`today`, day addition and subtraction) funnels through that
constructor and therefore only ever yields instances whose fields are
valid, and the `BSDateTime` constructor additionally range-checks every
time component.  Arithmetic returns a fresh record; the receiver is an
immutable value. -/
theorem C9_no_invalid_state (cal : Calendar) :
    (∀ y m d, (∃ b, BSDate.mk? cal y m d = .ok b) ↔ is_valid_bs_date cal y m d = true) ∧
    (∀ y m d b, BSDate.mk? cal y m d = .ok b → b = ⟨y, m, d⟩ ∧ b.valid cal) ∧
    (∀ o b, BSDate.fromordinal cal o = .ok b → b.valid cal) ∧
    (∀ b y m d b2, BSDate.replace cal b y m d = .ok b2 → b2.valid cal) ∧
    (∀ b k b2, BSDate.addDays cal b k = .ok b2 → b2.valid cal) ∧
    (∀ b k b2, BSDate.subDays cal b k = .ok b2 → b2.valid cal) ∧
    (∀ y m d b, BSDate.from_ad cal y m d = .ok b → b.valid cal) ∧
    (∀ y m d hh mi ss us tz,
      (∃ t, BSDateTime.mk? cal y m d hh mi ss us tz = .ok t) ↔
        (is_valid_bs_date cal y m d = true ∧ hh ≤ 23 ∧ mi ≤ 59 ∧ ss ≤ 59 ∧
          us ≤ 999999)) ∧
    (∀ y m d hh mi ss us tz t, BSDateTime.mk? cal y m d hh mi ss us tz = .ok t →
      t = ⟨y, m, d, hh, mi, ss, us, tz⟩ ∧
      is_valid_bs_date cal t.year t.month t.day = true) := by
  have hmk : ∀ y m d b, BSDate.mk? cal y m d = .ok b → b = ⟨y, m, d⟩ ∧ b.valid cal := by
    intro y m d b h
    unfold BSDate.mk? at h
    split at h
    · cases h
      exact ⟨rfl, by assumption⟩
    · cases h
  refine ⟨?_, hmk, ?_, ?_, ?_, ?_, ?_, ?_, ?_⟩
  · intro y m d
    constructor
    · rintro ⟨b, hb⟩
      unfold BSDate.mk? at hb
      split at hb
      · assumption
      · cases hb
    · intro hv
      exact ⟨⟨y, m, d⟩, by unfold BSDate.mk?; rw [if_pos hv]⟩
  · intro o b h
    unfold BSDate.fromordinal at h
    split at h
    · cases h
    · exact (hmk _ _ _ _ h).2
  · intro b y m d b2 h
    exact (hmk _ _ _ _ h).2
  · intro b k b2 h
    unfold BSDate.addDays at h
    split at h
    · cases h
    · unfold BSDate.fromordinal at h
      split at h
      · cases h
      · exact (hmk _ _ _ _ h).2
  · intro b k b2 h
    unfold BSDate.subDays at h
    unfold BSDate.addDays at h
    split at h
    · cases h
    · unfold BSDate.fromordinal at h
      split at h
      · cases h
      · exact (hmk _ _ _ _ h).2
  · intro y m d b h
    unfold BSDate.from_ad at h
    split at h
    · cases h
    · exact (hmk _ _ _ _ h).2
  · intro y m d hh mi ss us tz
    constructor
    · rintro ⟨t, ht⟩
      unfold BSDateTime.mk? at ht
      split at ht
      · split at ht
        · cases ht
        · split at ht
          · cases ht
          · split at ht
            · cases ht
            · split at ht
              · cases ht
              · refine ⟨by assumption, by omega, by omega, by omega, by omega⟩
      · cases ht
    · rintro ⟨hv, h1, h2, h3, h4⟩
      refine ⟨⟨y, m, d, hh, mi, ss, us, tz⟩, ?_⟩
      unfold BSDateTime.mk?
      rw [if_pos hv, if_neg (by omega), if_neg (by omega), if_neg (by omega),
        if_neg (by omega)]
  · intro y m d hh mi ss us tz t ht
    unfold BSDateTime.mk? at ht
    split at ht
    · split at ht
      · cases ht
      · split at ht
        · cases ht
        · split at ht
          · cases ht
          · split at ht
            · cases ht
            · cases ht
              exact ⟨rfl, by assumption⟩
    · cases ht

/-- Witness for C9 at the modelled table, BS 2080-10-24 and a day addition
crossing a month boundary. -/
theorem C9_no_invalid_state_witness :
    (∃ b, BSDate.mk? mcal 2080 10 24 = .ok b) ∧
    BSDate.valid mcal ⟨2080, 10, 25⟩ ∧
    (∃ t, BSDateTime.mk? mcal 2080 10 24 14 30 0 0 none = .ok t) :=
  ⟨((C9_no_invalid_state mcal).1 2080 10 24).mpr (by decide),
   (C9_no_invalid_state mcal).2.2.1 65681 ⟨2080, 10, 25⟩ (by decide),
   ((C9_no_invalid_state mcal).2.2.2.2.2.2.2.1 2080 10 24 14 30 0 0 none).mpr
     ⟨by decide, by omega, by omega, by omega, by omega⟩⟩

/-! String machinery: Python string primitives over `Str = List Char`. -/

/-- Python's substring containment `pat in s` (for nonempty `pat`; the only
patterns used are two-character format codes and single characters). -/
def strContains (s pat : Str) : Bool :=
  match s with
  | [] => pat.isEmpty
  | _ :: rest => pat.isPrefixOf s || strContains rest pat

/-- Recursion core of Python's `s.replace(pat, rep)`: scans left to right,
substituting each non-overlapping occurrence of `pat`.  The fuel is the
remaining length of `s`, which strictly bounds the recursion. -/
def strReplaceAux (pat rep : Str) : Nat → Str → Str
  | _, [] => []
  | 0, s => s
  | fuel + 1, c :: rest =>
    if pat.isPrefixOf (c :: rest) then
      rep ++ strReplaceAux pat rep fuel (List.drop (pat.length - 1) rest)
    else c :: strReplaceAux pat rep fuel rest

/-- Python's `s.replace(pat, rep)` for nonempty `pat` (the degenerate empty
pattern is never used by the source). -/
def strReplace (s pat rep : Str) : Str :=
  if pat.isEmpty then s else strReplaceAux pat rep s.length s

/-- Decimal digit character. -/
def digitChar (k : Nat) : Char :=
  match k with
  | 0 => '0' | 1 => '1' | 2 => '2' | 3 => '3' | 4 => '4'
  | 5 => '5' | 6 => '6' | 7 => '7' | 8 => '8' | _ => '9'

/-- Little-endian decimal digits of `n` (fuel-structural; `n` itself is
always enough fuel since `n / 10` shrinks). -/
def decToStrAux : Nat → Nat → Str
  | 0, _ => []
  | fuel + 1, n => if n = 0 then [] else digitChar (n % 10) :: decToStrAux fuel (n / 10)

/-- Decimal digit string of `n` (empty for 0; always used zero-padded). -/
def decToStr (n : Nat) : Str := (decToStrAux n n).reverse

/-- Python `str(n)` for a natural number. -/
def pyNatStr (n : Nat) : Str := if n = 0 then ['0'] else decToStr n

/-- Python's zero padding `f"{n:0wd}"`. -/
def fmt0 (w n : Nat) : Str := List.replicate (w - (decToStr n).length) '0' ++ decToStr n

/-- Python's `int(s)` on a string of ASCII decimal digits. -/
def parseNat (s : Str) : Nat := s.foldl (fun a c => 10 * a + (c.toNat - 48)) 0

/-- Arabic-to-Devanagari digit substitution (`to_devanagari`,
`numbers/devanagari.py`); non-digits are preserved. -/
def devChar (c : Char) : Char :=
  if c = '0' then '०' else if c = '1' then '१' else if c = '2' then '२'
  else if c = '3' then '३' else if c = '4' then '४' else if c = '5' then '५'
  else if c = '6' then '६' else if c = '7' then '७' else if c = '8' then '८'
  else if c = '9' then '९' else c

/-- Embedding of `to_devanagari` on strings. -/
def to_devanagari (s : Str) : Str := s.map devChar

/-- Devanagari-to-Arabic digit substitution (`from_devanagari`). -/
def arabChar (c : Char) : Char :=
  if c = '०' then '0' else if c = '१' then '1' else if c = '२' then '2'
  else if c = '३' then '3' else if c = '४' then '4' else if c = '५' then '5'
  else if c = '६' then '6' else if c = '७' then '7' else if c = '८' then '8'
  else if c = '९' then '9' else c

/-- Embedding of `from_devanagari` on strings. -/
def from_devanagari (s : Str) : Str := s.map arabChar

/-! Name tables from `text/constants.py`. -/

/-- `MONTHS_ENGLISH`. -/
def MONTHS_ENGLISH : List Str :=
  ["Baishakh".toList, "Jestha".toList, "Asar".toList, "Shrawan".toList,
   "Bhadau".toList, "Asoj".toList, "Kartik".toList, "Mangsir".toList,
   "Poush".toList, "Magh".toList, "Falgun".toList, "Chaitra".toList]

/-- `MONTHS_ENGLISH_SHORT`. -/
def MONTHS_ENGLISH_SHORT : List Str :=
  ["Bai".toList, "Jes".toList, "Asa".toList, "Shr".toList, "Bha".toList,
   "Ash".toList, "Kar".toList, "Man".toList, "Pou".toList, "Mag".toList,
   "Fal".toList, "Cha".toList]

/-- `MONTHS_NEPALI` (formal/colloquial). -/
def MONTHS_NEPALI : List Str :=
  ["बैशाख".toList, "जेठ".toList, "असार".toList, "साउन".toList, "भदौ".toList,
   "असोज".toList, "कार्तिक".toList, "मंसिर".toList, "पुष".toList, "माघ".toList,
   "फागुन".toList, "चैत".toList]

/-- `MONTHS_NEPALI_SANSKRIT` (traditional). -/
def MONTHS_NEPALI_SANSKRIT : List Str :=
  ["वैशाख".toList, "ज्येष्ठ".toList, "आषाढ".toList, "श्रावण".toList, "भाद्र".toList,
   "आश्विन".toList, "कार्तिक".toList, "मार्ग".toList, "पौष".toList, "माघ".toList,
   "फाल्गुन".toList, "चैत्र".toList]

/-- `DAYS_ENGLISH` (Sunday first). -/
def DAYS_ENGLISH : List Str :=
  ["Sunday".toList, "Monday".toList, "Tuesday".toList, "Wednesday".toList,
   "Thursday".toList, "Friday".toList, "Saturday".toList]

/-- `DAYS_ENGLISH_SHORT`. -/
def DAYS_ENGLISH_SHORT : List Str :=
  ["Sun".toList, "Mon".toList, "Tue".toList, "Wed".toList, "Thu".toList,
   "Fri".toList, "Sat".toList]

/-- `DAYS_NEPALI` (Sunday first). -/
def DAYS_NEPALI : List Str :=
  ["आइतबार".toList, "सोमबार".toList, "मंगलबार".toList, "बुधबार".toList,
   "बिहिबार".toList, "शुक्रबार".toList, "शनिबार".toList]

/-- `DAYS_NEPALI_SHORT`. -/
def DAYS_NEPALI_SHORT : List Str :=
  ["आइत".toList, "सोम".toList, "मंगल".toList, "बुध".toList, "बिहि".toList,
   "शुक्र".toList, "शनि".toList]

/-- `TIME_PERIODS_NEPALI` values, selected by `get_nepali_time_period`
(`format_codes.py`): morning 4-11, afternoon 12-15, evening 16-19,
otherwise night. -/
def get_nepali_time_period (hour : Nat) : Str :=
  if 4 ≤ hour ∧ hour < 12 then "बिहान".toList
  else if 12 ≤ hour ∧ hour < 16 then "दिउँसो".toList
  else if 16 ≤ hour ∧ hour < 20 then "बेलुका".toList
  else "राति".toList

/-! The format engine (`format_codes.py`). -/

/-- A value passed to `format_bs_datetime`: either a date-only `BSDate` or a
`BSDateTime`. -/
inductive FmtValue where
  | date (b : BSDate)
  | datetime (t : BSDateTime)
deriving DecidableEq

/-- The value's `year` attribute (both kinds have it). -/
def FmtValue.year : FmtValue → Nat
  | .date b => b.year
  | .datetime t => t.year

/-- The value's `month` attribute. -/
def FmtValue.month : FmtValue → Nat
  | .date b => b.month
  | .datetime t => t.month

/-- The value's `day` attribute. -/
def FmtValue.day : FmtValue → Nat
  | .date b => b.day
  | .datetime t => t.day

/-- Python's `getattr(o, 'hour', 0)`: 0 for a date-only value. -/
def FmtValue.hourD : FmtValue → Nat
  | .date _ => 0
  | .datetime t => t.hour

/-- Python's `getattr(o, 'minute', 0)`. -/
def FmtValue.minuteD : FmtValue → Nat
  | .date _ => 0
  | .datetime t => t.minute

/-- Python's `getattr(o, 'second', 0)`. -/
def FmtValue.secondD : FmtValue → Nat
  | .date _ => 0
  | .datetime t => t.second

/-- Python's `getattr(o, 'microsecond', 0)`. -/
def FmtValue.microsecondD : FmtValue → Nat
  | .date _ => 0
  | .datetime t => t.microsecond

/-- The `hasattr(o, 'tzinfo')` guarded access of the timezone formatters:
a `BSDate` has no `tzinfo` attribute. -/
def FmtValue.tzinfo : FmtValue → Option TzInfo
  | .date _ => none
  | .datetime t => t.tz

/-- `weekday()` of both value classes: convert to AD and renumber with
Sunday = 0.  Python's `date.weekday()` of ordinal `n` is `(n + 6) % 7`; an
out-of-range stored date would raise inside the conversion, modelled as
`none`. -/
def FmtValue.weekdayOf (cal : Calendar) (v : FmtValue) : Option Nat :=
  match bs_date_to_ordinal cal v.year v.month v.day with
  | .error _ => none
  | .ok o => some (((refAdOrdinal + o - 1 + 6) % 7 + 1) % 7)

/-- The `%j` computation `o.toordinal() - o.replace(month=1, day=1).toordinal() + 1`.
Only `BSDate` defines `toordinal` (`bs_date.py`); `BSDateTime` has no such
method, so on a datetime the very first attribute access raises
`AttributeError`, modelled as `none`.  For a date, the `replace` call
re-validates `(year, 1, 1)`. -/
def FmtValue.dayOfYear (cal : Calendar) (v : FmtValue) : Option Nat :=
  match v with
  | .datetime _ => none
  | .date b =>
    match bs_date_to_ordinal cal b.year b.month b.day with
    | .error _ => none
    | .ok o =>
      if is_valid_bs_date cal b.year 1 1 then
        match bs_date_to_ordinal cal b.year 1 1 with
        | .error _ => none
        | .ok o2 => some (o - o2 + 1)
      else none

/-- Embedding of `format_timezone_offset`: empty for no timezone, else
`+HHMM`/`-HHMM` from the offset. -/
def format_timezone_offset (v : FmtValue) : Str :=
  match v.tzinfo with
  | none => []
  | some tz =>
    let total := tz.offsetMinutes * 60
    let sign : Str := if 0 ≤ total then ['+'] else ['-']
    let ts := total.natAbs
    sign ++ fmt0 2 (ts / 3600) ++ fmt0 2 (ts % 3600 / 60)

/-- Embedding of `format_timezone_name`. -/
def format_timezone_name (v : FmtValue) : Str :=
  match v.tzinfo with
  | none => []
  | some tz => tz.name

/-- The keys of `ALL_FORMAT_CODES` in Python dict insertion order:
`STANDARD_CODES` first, then `NEPALI_CODES`. -/
def allFormatCodes : List Str :=
  ["%Y".toList, "%y".toList, "%m".toList, "%d".toList, "%B".toList, "%b".toList,
   "%A".toList, "%a".toList, "%w".toList, "%j".toList, "%H".toList, "%I".toList,
   "%M".toList, "%S".toList, "%f".toList, "%p".toList, "%z".toList, "%Z".toList,
   "%%".toList, "%D".toList, "%n".toList, "%N".toList, "%K".toList, "%k".toList,
   "%G".toList, "%g".toList, "%h".toList, "%i".toList, "%s".toList, "%P".toList]

/-- One formatter lambda of `ALL_FORMAT_CODES`, as a partial function:
`none` models a raised exception inside the formatter (caught by the
caller's blanket `except`).  The `%N` branch includes the loop's
style-dependent special case (`style == 'sanskrit'`). -/
def applyCodeChar (cal : Calendar) (style : Str) (v : FmtValue) (c : Char) : Option Str :=
  if c = 'Y' then some (fmt0 4 v.year)
  else if c = 'y' then some (fmt0 2 (v.year % 100))
  else if c = 'm' then some (fmt0 2 v.month)
  else if c = 'd' then some (fmt0 2 v.day)
  else if c = 'B' then MONTHS_ENGLISH[v.month - 1]?
  else if c = 'b' then MONTHS_ENGLISH_SHORT[v.month - 1]?
  else if c = 'A' then (v.weekdayOf cal).bind (DAYS_ENGLISH[·]?)
  else if c = 'a' then (v.weekdayOf cal).bind (DAYS_ENGLISH_SHORT[·]?)
  else if c = 'w' then (v.weekdayOf cal).map pyNatStr
  else if c = 'j' then (v.dayOfYear cal).map (fmt0 3)
  else if c = 'H' then some (fmt0 2 v.hourD)
  else if c = 'I' then some (fmt0 2 (if v.hourD % 12 = 0 then 12 else v.hourD % 12))
  else if c = 'M' then some (fmt0 2 v.minuteD)
  else if c = 'S' then some (fmt0 2 v.secondD)
  else if c = 'f' then some (fmt0 6 v.microsecondD)
  else if c = 'p' then some (if 12 ≤ v.hourD then "PM".toList else "AM".toList)
  else if c = 'z' then some (format_timezone_offset v)
  else if c = 'Z' then some (format_timezone_name v)
  else if c = '%' then some ['%']
  else if c = 'D' then some (to_devanagari (fmt0 2 v.day))
  else if c = 'n' then some (to_devanagari (fmt0 2 v.month))
  else if c = 'N' then
    (if style = "sanskrit".toList then MONTHS_NEPALI_SANSKRIT[v.month - 1]?
     else MONTHS_NEPALI[v.month - 1]?)
  else if c = 'K' then some (to_devanagari (fmt0 4 v.year))
  else if c = 'k' then some (to_devanagari (fmt0 2 (v.year % 100)))
  else if c = 'G' then (v.weekdayOf cal).bind (DAYS_NEPALI[·]?)
  else if c = 'g' then (v.weekdayOf cal).bind (DAYS_NEPALI_SHORT[·]?)
  else if c = 'h' then some (to_devanagari (fmt0 2 v.hourD))
  else if c = 'i' then some (to_devanagari (fmt0 2 v.minuteD))
  else if c = 's' then some (to_devanagari (fmt0 2 v.secondD))
  else if c = 'P' then some (get_nepali_time_period v.hourD)
  else none

/-- Entry point dispatching a two-character code to its formatter. -/
def applyCode (cal : Calendar) (style : Str) (v : FmtValue) (code : Str) : Option Str :=
  match code with
  | ['%', c] => applyCodeChar cal style v c
  | _ => none

/-- Embedding of the body of the loop in `format_bs_datetime(date_obj, fmt,
style)`: if the code occurs in the current result, replace every occurrence
by its formatted value; a formatter exception (`none`) leaves the string
unchanged (the source's `except` arms). -/
def formatStep (cal : Calendar) (style : Str) (v : FmtValue) (result code : Str) : Str :=
  if strContains result code then
    match applyCode cal style v code with
    | some val => strReplace result code val
    | none => result
  else result

/-- Embedding of `format_bs_datetime(date_obj, fmt, style)`: early return if
no percent sign, then the loop over `ALL_FORMAT_CODES` in dict order. -/
def format_bs_datetime (cal : Calendar) (v : FmtValue) (fmt : Str) (style : Str) : Str :=
  if ¬ strContains fmt ['%'] then fmt
  else allFormatCodes.foldl (formatStep cal style v) fmt

example :
    format_bs_datetime mcal (.datetime ⟨2080, 10, 24, 14, 30, 0, 0, none⟩)
      "%Y-%m-%d %H:%M".toList "formal".toList = "2080-10-24 14:30".toList := by decide

example :
    format_bs_datetime mcal (.date ⟨2080, 10, 24⟩) "%H".toList "formal".toList
      = "00".toList := by decide

/-- The invariant carried by every constructed value (claim C9). -/
def FmtValue.valid (cal : Calendar) : FmtValue → Prop
  | .date b => is_valid_bs_date cal b.year b.month b.day = true
  | .datetime t => is_valid_bs_date cal t.year t.month t.day = true

theorem FmtValue.valid_fields (cal : Calendar) (v : FmtValue) :
    v.valid cal ↔ is_valid_bs_date cal v.year v.month v.day = true := by
  cases v <;> rfl

theorem weekdayOf_eq_some (cal : Calendar) (v : FmtValue)
    (hv : v.valid cal) : ∃ w, v.weekdayOf cal = some w ∧ w < 7 := by
  obtain ⟨hy1, hy2, hm1, hm2, _, _⟩ :=
    (is_valid_bs_date_iff cal v.year v.month v.day).mp
      ((FmtValue.valid_fields cal v).mp hv)
  unfold FmtValue.weekdayOf
  rw [bs_date_to_ordinal_eq cal _ _ _ hy1 hy2 hm1 hm2]
  exact ⟨_, rfl, Nat.mod_lt _ (by omega)⟩

theorem dayOfYear_isSome (cal : Calendar) (hg : GoodTable cal) (b : BSDate)
    (hv : is_valid_bs_date cal b.year b.month b.day = true) :
    (FmtValue.dayOfYear cal (.date b)).isSome = true := by
  obtain ⟨hy1, hy2, hm1, hm2, _, _⟩ :=
    (is_valid_bs_date_iff cal b.year b.month b.day).mp hv
  have hfirst : is_valid_bs_date cal b.year 1 1 = true := by
    rw [is_valid_bs_date_iff]
    simp only [show (1 : Nat) - 1 = 0 from rfl]
    have := (monthLen_bounds cal hg b.year 0 hy1 hy2 (by omega)).1
    omega
  unfold FmtValue.dayOfYear
  simp only [bs_date_to_ordinal_eq cal b.year b.month b.day hy1 hy2 hm1 hm2]
  rw [if_pos hfirst]
  simp only [bs_date_to_ordinal_eq cal b.year 1 1 hy1 hy2 (by omega) (by omega)]
  rfl

theorem isSome_idx12 (l : List Str) (hl : l.length = 12) {m : Nat}
    (hm1 : 1 ≤ m) (hm2 : m ≤ 12) : (l[m - 1]?).isSome = true := by
  rw [List.getElem?_eq_getElem (by omega)]
  rfl

theorem isSome_idx7 (l : List Str) (hl : l.length = 7) {w : Nat}
    (hw : w < 7) : (l[w]?).isSome = true := by
  rw [List.getElem?_eq_getElem (by omega)]
  rfl

/-- Evaluation of the format loop on the template "%H" for a date-only
value: the hour code is replaced by the zero default. -/
theorem format_date_H (cal : Calendar) (style : Str) (b : BSDate) :
    format_bs_datetime cal (.date b) "%H".toList style = "00".toList := by
  simp only [format_bs_datetime, allFormatCodes]
  rw [if_neg (by decide)]
  rw [List.foldl_cons,
    show formatStep cal style (.date b) "%H".toList "%Y".toList = "%H".toList from rfl]
  rw [List.foldl_cons,
    show formatStep cal style (.date b) "%H".toList "%y".toList = "%H".toList from rfl]
  rw [List.foldl_cons,
    show formatStep cal style (.date b) "%H".toList "%m".toList = "%H".toList from rfl]
  rw [List.foldl_cons,
    show formatStep cal style (.date b) "%H".toList "%d".toList = "%H".toList from rfl]
  rw [List.foldl_cons,
    show formatStep cal style (.date b) "%H".toList "%B".toList = "%H".toList from rfl]
  rw [List.foldl_cons,
    show formatStep cal style (.date b) "%H".toList "%b".toList = "%H".toList from rfl]
  rw [List.foldl_cons,
    show formatStep cal style (.date b) "%H".toList "%A".toList = "%H".toList from rfl]
  rw [List.foldl_cons,
    show formatStep cal style (.date b) "%H".toList "%a".toList = "%H".toList from rfl]
  rw [List.foldl_cons,
    show formatStep cal style (.date b) "%H".toList "%w".toList = "%H".toList from rfl]
  rw [List.foldl_cons,
    show formatStep cal style (.date b) "%H".toList "%j".toList = "%H".toList from rfl]
  rw [List.foldl_cons,
    show formatStep cal style (.date b) "%H".toList "%H".toList = "00".toList from rfl]
  rw [List.foldl_cons,
    show formatStep cal style (.date b) "00".toList "%I".toList = "00".toList from rfl]
  rw [List.foldl_cons,
    show formatStep cal style (.date b) "00".toList "%M".toList = "00".toList from rfl]
  rw [List.foldl_cons,
    show formatStep cal style (.date b) "00".toList "%S".toList = "00".toList from rfl]
  rw [List.foldl_cons,
    show formatStep cal style (.date b) "00".toList "%f".toList = "00".toList from rfl]
  rw [List.foldl_cons,
    show formatStep cal style (.date b) "00".toList "%p".toList = "00".toList from rfl]
  rw [List.foldl_cons,
    show formatStep cal style (.date b) "00".toList "%z".toList = "00".toList from rfl]
  rw [List.foldl_cons,
    show formatStep cal style (.date b) "00".toList "%Z".toList = "00".toList from rfl]
  rw [List.foldl_cons,
    show formatStep cal style (.date b) "00".toList "%%".toList = "00".toList from rfl]
  rw [List.foldl_cons,
    show formatStep cal style (.date b) "00".toList "%D".toList = "00".toList from rfl]
  rw [List.foldl_cons,
    show formatStep cal style (.date b) "00".toList "%n".toList = "00".toList from rfl]
  rw [List.foldl_cons,
    show formatStep cal style (.date b) "00".toList "%N".toList = "00".toList from rfl]
  rw [List.foldl_cons,
    show formatStep cal style (.date b) "00".toList "%K".toList = "00".toList from rfl]
  rw [List.foldl_cons,
    show formatStep cal style (.date b) "00".toList "%k".toList = "00".toList from rfl]
  rw [List.foldl_cons,
    show formatStep cal style (.date b) "00".toList "%G".toList = "00".toList from rfl]
  rw [List.foldl_cons,
    show formatStep cal style (.date b) "00".toList "%g".toList = "00".toList from rfl]
  rw [List.foldl_cons,
    show formatStep cal style (.date b) "00".toList "%h".toList = "00".toList from rfl]
  rw [List.foldl_cons,
    show formatStep cal style (.date b) "00".toList "%i".toList = "00".toList from rfl]
  rw [List.foldl_cons,
    show formatStep cal style (.date b) "00".toList "%s".toList = "00".toList from rfl]
  rw [List.foldl_cons,
    show formatStep cal style (.date b) "00".toList "%P".toList = "00".toList from rfl]
  rw [List.foldl_nil]

/-- Evaluation of the format loop on "%H:%M:%S" for a date-only value. -/
theorem format_date_HMS (cal : Calendar) (style : Str) (b : BSDate) :
    format_bs_datetime cal (.date b) "%H:%M:%S".toList style = "00:00:00".toList := by
  simp only [format_bs_datetime, allFormatCodes]
  rw [if_neg (by decide)]
  rw [List.foldl_cons,
    show formatStep cal style (.date b) "%H:%M:%S".toList "%Y".toList = "%H:%M:%S".toList from rfl]
  rw [List.foldl_cons,
    show formatStep cal style (.date b) "%H:%M:%S".toList "%y".toList = "%H:%M:%S".toList from rfl]
  rw [List.foldl_cons,
    show formatStep cal style (.date b) "%H:%M:%S".toList "%m".toList = "%H:%M:%S".toList from rfl]
  rw [List.foldl_cons,
    show formatStep cal style (.date b) "%H:%M:%S".toList "%d".toList = "%H:%M:%S".toList from rfl]
  rw [List.foldl_cons,
    show formatStep cal style (.date b) "%H:%M:%S".toList "%B".toList = "%H:%M:%S".toList from rfl]
  rw [List.foldl_cons,
    show formatStep cal style (.date b) "%H:%M:%S".toList "%b".toList = "%H:%M:%S".toList from rfl]
  rw [List.foldl_cons,
    show formatStep cal style (.date b) "%H:%M:%S".toList "%A".toList = "%H:%M:%S".toList from rfl]
  rw [List.foldl_cons,
    show formatStep cal style (.date b) "%H:%M:%S".toList "%a".toList = "%H:%M:%S".toList from rfl]
  rw [List.foldl_cons,
    show formatStep cal style (.date b) "%H:%M:%S".toList "%w".toList = "%H:%M:%S".toList from rfl]
  rw [List.foldl_cons,
    show formatStep cal style (.date b) "%H:%M:%S".toList "%j".toList = "%H:%M:%S".toList from rfl]
  rw [List.foldl_cons,
    show formatStep cal style (.date b) "%H:%M:%S".toList "%H".toList = "00:%M:%S".toList from rfl]
  rw [List.foldl_cons,
    show formatStep cal style (.date b) "00:%M:%S".toList "%I".toList = "00:%M:%S".toList from rfl]
  rw [List.foldl_cons,
    show formatStep cal style (.date b) "00:%M:%S".toList "%M".toList = "00:00:%S".toList from rfl]
  rw [List.foldl_cons,
    show formatStep cal style (.date b) "00:00:%S".toList "%S".toList = "00:00:00".toList from rfl]
  rw [List.foldl_cons,
    show formatStep cal style (.date b) "00:00:00".toList "%f".toList = "00:00:00".toList from rfl]
  rw [List.foldl_cons,
    show formatStep cal style (.date b) "00:00:00".toList "%p".toList = "00:00:00".toList from rfl]
  rw [List.foldl_cons,
    show formatStep cal style (.date b) "00:00:00".toList "%z".toList = "00:00:00".toList from rfl]
  rw [List.foldl_cons,
    show formatStep cal style (.date b) "00:00:00".toList "%Z".toList = "00:00:00".toList from rfl]
  rw [List.foldl_cons,
    show formatStep cal style (.date b) "00:00:00".toList "%%".toList = "00:00:00".toList from rfl]
  rw [List.foldl_cons,
    show formatStep cal style (.date b) "00:00:00".toList "%D".toList = "00:00:00".toList from rfl]
  rw [List.foldl_cons,
    show formatStep cal style (.date b) "00:00:00".toList "%n".toList = "00:00:00".toList from rfl]
  rw [List.foldl_cons,
    show formatStep cal style (.date b) "00:00:00".toList "%N".toList = "00:00:00".toList from rfl]
  rw [List.foldl_cons,
    show formatStep cal style (.date b) "00:00:00".toList "%K".toList = "00:00:00".toList from rfl]
  rw [List.foldl_cons,
    show formatStep cal style (.date b) "00:00:00".toList "%k".toList = "00:00:00".toList from rfl]
  rw [List.foldl_cons,
    show formatStep cal style (.date b) "00:00:00".toList "%G".toList = "00:00:00".toList from rfl]
  rw [List.foldl_cons,
    show formatStep cal style (.date b) "00:00:00".toList "%g".toList = "00:00:00".toList from rfl]
  rw [List.foldl_cons,
    show formatStep cal style (.date b) "00:00:00".toList "%h".toList = "00:00:00".toList from rfl]
  rw [List.foldl_cons,
    show formatStep cal style (.date b) "00:00:00".toList "%i".toList = "00:00:00".toList from rfl]
  rw [List.foldl_cons,
    show formatStep cal style (.date b) "00:00:00".toList "%s".toList = "00:00:00".toList from rfl]
  rw [List.foldl_cons,
    show formatStep cal style (.date b) "00:00:00".toList "%P".toList = "00:00:00".toList from rfl]
  rw [List.foldl_nil]

/-- Evaluation of the format loop on "%H:%M" for a date-only value. -/
theorem format_date_HM (cal : Calendar) (style : Str) (b : BSDate) :
    format_bs_datetime cal (.date b) "%H:%M".toList style = "00:00".toList := by
  simp only [format_bs_datetime, allFormatCodes]
  rw [if_neg (by decide)]
  rw [List.foldl_cons,
    show formatStep cal style (.date b) "%H:%M".toList "%Y".toList = "%H:%M".toList from rfl]
  rw [List.foldl_cons,
    show formatStep cal style (.date b) "%H:%M".toList "%y".toList = "%H:%M".toList from rfl]
  rw [List.foldl_cons,
    show formatStep cal style (.date b) "%H:%M".toList "%m".toList = "%H:%M".toList from rfl]
  rw [List.foldl_cons,
    show formatStep cal style (.date b) "%H:%M".toList "%d".toList = "%H:%M".toList from rfl]
  rw [List.foldl_cons,
    show formatStep cal style (.date b) "%H:%M".toList "%B".toList = "%H:%M".toList from rfl]
  rw [List.foldl_cons,
    show formatStep cal style (.date b) "%H:%M".toList "%b".toList = "%H:%M".toList from rfl]
  rw [List.foldl_cons,
    show formatStep cal style (.date b) "%H:%M".toList "%A".toList = "%H:%M".toList from rfl]
  rw [List.foldl_cons,
    show formatStep cal style (.date b) "%H:%M".toList "%a".toList = "%H:%M".toList from rfl]
  rw [List.foldl_cons,
    show formatStep cal style (.date b) "%H:%M".toList "%w".toList = "%H:%M".toList from rfl]
  rw [List.foldl_cons,
    show formatStep cal style (.date b) "%H:%M".toList "%j".toList = "%H:%M".toList from rfl]
  rw [List.foldl_cons,
    show formatStep cal style (.date b) "%H:%M".toList "%H".toList = "00:%M".toList from rfl]
  rw [List.foldl_cons,
    show formatStep cal style (.date b) "00:%M".toList "%I".toList = "00:%M".toList from rfl]
  rw [List.foldl_cons,
    show formatStep cal style (.date b) "00:%M".toList "%M".toList = "00:00".toList from rfl]
  rw [List.foldl_cons,
    show formatStep cal style (.date b) "00:00".toList "%S".toList = "00:00".toList from rfl]
  rw [List.foldl_cons,
    show formatStep cal style (.date b) "00:00".toList "%f".toList = "00:00".toList from rfl]
  rw [List.foldl_cons,
    show formatStep cal style (.date b) "00:00".toList "%p".toList = "00:00".toList from rfl]
  rw [List.foldl_cons,
    show formatStep cal style (.date b) "00:00".toList "%z".toList = "00:00".toList from rfl]
  rw [List.foldl_cons,
    show formatStep cal style (.date b) "00:00".toList "%Z".toList = "00:00".toList from rfl]
  rw [List.foldl_cons,
    show formatStep cal style (.date b) "00:00".toList "%%".toList = "00:00".toList from rfl]
  rw [List.foldl_cons,
    show formatStep cal style (.date b) "00:00".toList "%D".toList = "00:00".toList from rfl]
  rw [List.foldl_cons,
    show formatStep cal style (.date b) "00:00".toList "%n".toList = "00:00".toList from rfl]
  rw [List.foldl_cons,
    show formatStep cal style (.date b) "00:00".toList "%N".toList = "00:00".toList from rfl]
  rw [List.foldl_cons,
    show formatStep cal style (.date b) "00:00".toList "%K".toList = "00:00".toList from rfl]
  rw [List.foldl_cons,
    show formatStep cal style (.date b) "00:00".toList "%k".toList = "00:00".toList from rfl]
  rw [List.foldl_cons,
    show formatStep cal style (.date b) "00:00".toList "%G".toList = "00:00".toList from rfl]
  rw [List.foldl_cons,
    show formatStep cal style (.date b) "00:00".toList "%g".toList = "00:00".toList from rfl]
  rw [List.foldl_cons,
    show formatStep cal style (.date b) "00:00".toList "%h".toList = "00:00".toList from rfl]
  rw [List.foldl_cons,
    show formatStep cal style (.date b) "00:00".toList "%i".toList = "00:00".toList from rfl]
  rw [List.foldl_cons,
    show formatStep cal style (.date b) "00:00".toList "%s".toList = "00:00".toList from rfl]
  rw [List.foldl_cons,
    show formatStep cal style (.date b) "00:00".toList "%P".toList = "00:00".toList from rfl]
  rw [List.foldl_nil]

/-- C3 counterexample: the claim says an hour code applied to a date-only
value leaves the literal code text untouched, but the formatter lambdas use
`getattr(o, 'hour', 0)`, so `%H` on a `BSDate` renders the default hour 0 as
"00" instead of surviving as "%H". -/
theorem C3_counterexample :
    format_bs_datetime mcal (.date ⟨2080, 10, 24⟩) "%H".toList "formal".toList
      = "00".toList ∧
    "00".toList ≠ "%H".toList :=
  ⟨by decide, by decide⟩

/-- C3 (amended): a format code whose field is absent from the value's kind
is not skipped; the missing field reads as the default 0 through
`getattr(..., 0)` and the code is replaced by the zero-padded default (for
example `%H` on a date-only value renders "00"), for every calendar, every
date value and every style. -/
theorem C3_zero_fill_default (cal : Calendar) (b : BSDate) (style : Str) :
    format_bs_datetime cal (.date b) "%H".toList style = "00".toList ∧
    format_bs_datetime cal (.date b) "%H:%M:%S".toList style = "00:00:00".toList :=
  ⟨format_date_H cal style b, format_date_HMS cal style b⟩

/-- C8 counterexample: the claim says an inapplicable code degrades to a
no-op leaving the template text unchanged, but `%M` on a date-only value is
substituted with "00". -/
theorem C8_counterexample :
    format_bs_datetime mcal (.date ⟨2079, 2, 15⟩) "%M".toList "formal".toList
      = "00".toList ∧
    "00".toList ≠ "%M".toList :=
  ⟨by decide, by decide⟩

/-- C8 (amended): formatting never raises — the loop body catches every
exception and `format_bs_datetime` always returns a string.  For a valid
date-only value every formatter in the vocabulary produces a value
(`isSome`), for any style; for a valid datetime every formatter except
`%j` does.  `%j` on a datetime fails internally (`BSDateTime` has no
`toordinal`, so the formatter raises `AttributeError`); the loop catches
it and the step is an exact no-op, leaving the literal `%j` in the
template.  A code whose fields are absent from the value's kind is NOT a
no-op: the missing time fields read as zero through `getattr` defaults,
so `%H:%M` on a date-only value renders "00:00". -/
theorem C8_format_never_raises (cal : Calendar) (hg : GoodTable cal) :
    (∀ (b : BSDate) (style : Str), (FmtValue.date b).valid cal →
      ∀ code ∈ allFormatCodes,
        (applyCode cal style (.date b) code).isSome = true) ∧
    (∀ (t : BSDateTime) (style : Str), (FmtValue.datetime t).valid cal →
      ∀ code ∈ allFormatCodes, code ≠ "%j".toList →
        (applyCode cal style (.datetime t) code).isSome = true) ∧
    (∀ (t : BSDateTime) (style s : Str),
      applyCode cal style (.datetime t) "%j".toList = none ∧
      formatStep cal style (.datetime t) s "%j".toList = s) ∧
    (∀ (b : BSDate) (style : Str),
      format_bs_datetime cal (.date b) "%H:%M".toList style = "00:00".toList) := by
  refine ⟨?_, ?_, ?_, ?_⟩
  · intro b style hv code hcode
    have hv' : is_valid_bs_date cal b.year b.month b.day = true := hv
    obtain ⟨hy1, hy2, hm1, hm2, _, _⟩ :=
      (is_valid_bs_date_iff cal b.year b.month b.day).mp hv'
    obtain ⟨w, hw, hw7⟩ := weekdayOf_eq_some cal (.date b) hv
    obtain ⟨x, hx⟩ :=
      Option.isSome_iff_exists.mp (dayOfYear_isSome cal hg b hv')
    simp only [allFormatCodes, List.mem_cons, List.not_mem_nil, or_false] at hcode
    rcases hcode with rfl|rfl|rfl|rfl|rfl|rfl|rfl|rfl|rfl|rfl|rfl|rfl|rfl|rfl|rfl|
      rfl|rfl|rfl|rfl|rfl|rfl|rfl|rfl|rfl|rfl|rfl|rfl|rfl|rfl|rfl <;>
      simp +decide only [applyCode, applyCodeChar, String.toList, Option.isSome_some,
        if_true, if_false, ite_true, ite_false]
    · exact isSome_idx12 MONTHS_ENGLISH (by decide) hm1 hm2
    · exact isSome_idx12 MONTHS_ENGLISH_SHORT (by decide) hm1 hm2
    · rw [hw]; exact isSome_idx7 DAYS_ENGLISH (by decide) hw7
    · rw [hw]; exact isSome_idx7 DAYS_ENGLISH_SHORT (by decide) hw7
    · rw [hw]; rfl
    · rw [hx]; rfl
    · split
      · exact isSome_idx12 MONTHS_NEPALI_SANSKRIT (by decide) hm1 hm2
      · exact isSome_idx12 MONTHS_NEPALI (by decide) hm1 hm2
    · rw [hw]; exact isSome_idx7 DAYS_NEPALI (by decide) hw7
    · rw [hw]; exact isSome_idx7 DAYS_NEPALI_SHORT (by decide) hw7
  · intro t style hv code hcode hne
    have hv' : is_valid_bs_date cal t.year t.month t.day = true := hv
    obtain ⟨hy1, hy2, hm1, hm2, _, _⟩ :=
      (is_valid_bs_date_iff cal t.year t.month t.day).mp hv'
    obtain ⟨w, hw, hw7⟩ := weekdayOf_eq_some cal (.datetime t) hv
    simp only [allFormatCodes, List.mem_cons, List.not_mem_nil, or_false] at hcode
    rcases hcode with rfl|rfl|rfl|rfl|rfl|rfl|rfl|rfl|rfl|rfl|rfl|rfl|rfl|rfl|rfl|
      rfl|rfl|rfl|rfl|rfl|rfl|rfl|rfl|rfl|rfl|rfl|rfl|rfl|rfl|rfl <;>
      simp +decide only [applyCode, applyCodeChar, String.toList, Option.isSome_some,
        if_true, if_false, ite_true, ite_false]
    · exact isSome_idx12 MONTHS_ENGLISH (by decide) hm1 hm2
    · exact isSome_idx12 MONTHS_ENGLISH_SHORT (by decide) hm1 hm2
    · rw [hw]; exact isSome_idx7 DAYS_ENGLISH (by decide) hw7
    · rw [hw]; exact isSome_idx7 DAYS_ENGLISH_SHORT (by decide) hw7
    · rw [hw]; rfl
    · exact absurd rfl hne
    · split
      · exact isSome_idx12 MONTHS_NEPALI_SANSKRIT (by decide) hm1 hm2
      · exact isSome_idx12 MONTHS_NEPALI (by decide) hm1 hm2
    · rw [hw]; exact isSome_idx7 DAYS_NEPALI (by decide) hw7
    · rw [hw]; exact isSome_idx7 DAYS_NEPALI_SHORT (by decide) hw7
  · intro t style s
    refine ⟨rfl, ?_⟩
    unfold formatStep
    rw [show applyCode cal style (.datetime t) "%j".toList = none from rfl]
    split <;> rfl
  · intro b style
    exact format_date_HM cal style b

/-- Witness for C8: a concrete formatter value on a date, and the `%j`
no-op on a concrete datetime. -/
theorem C8_format_never_raises_witness :
    (applyCode mcal "formal".toList (.date ⟨2080, 10, 24⟩) "%B".toList).isSome = true ∧
    formatStep mcal "formal".toList (.datetime ⟨2080, 10, 24, 14, 30, 0, 0, none⟩)
      "x%jx".toList "%j".toList = "x%jx".toList :=
  ⟨(C8_format_never_raises mcal goodTable_mcal).1 ⟨2080, 10, 24⟩ "formal".toList
      (by show is_valid_bs_date mcal 2080 10 24 = true; decide) "%B".toList (by decide),
   ((C8_format_never_raises mcal goodTable_mcal).2.2.1 ⟨2080, 10, 24, 14, 30, 0, 0, none⟩
      "formal".toList "x%jx".toList).2⟩

/-! The auto-detect parser (`parser.py`).  Each `_DATE_PATTERNS` regex is
embedded as a deterministic matcher: in every pattern, the token following
a greedy `\d{1,2}`, `\s+`, `[A-Za-z]+` or `[^\d\s]+` can never match a
character of that token's class, so greedy matching without backtracking is
equivalent to the regex. -/

/-- Python regex `\d` (after input normalization all digits are ASCII;
48..57 are the scalar values of `'0'..'9'`). -/
def isDigitChar (c : Char) : Bool := decide (48 ≤ c.toNat ∧ c.toNat ≤ 57)

/-- Python regex `\s` on ASCII input (space and the control characters
tab, newline, vertical tab, form feed, carriage return). -/
def isSpaceChar (c : Char) : Bool :=
  decide (c.toNat = 32 ∨ (9 ≤ c.toNat ∧ c.toNat ≤ 13))

/-- Python regex `[A-Za-z]` (scalar values 65..90 and 97..122). -/
def isAlphaEn (c : Char) : Bool :=
  decide ((65 ≤ c.toNat ∧ c.toNat ≤ 90) ∨ (97 ≤ c.toNat ∧ c.toNat ≤ 122))

/-- Regex `\d{2}`. -/
def digits2 (s : Str) : Option (Str × Str) :=
  match s with
  | c1 :: c2 :: rest =>
    if isDigitChar c1 && isDigitChar c2 then some ([c1, c2], rest) else none
  | _ => none

/-- Regex `\d{4}`. -/
def digits4 (s : Str) : Option (Str × Str) :=
  match s with
  | c1 :: c2 :: c3 :: c4 :: rest =>
    if isDigitChar c1 && isDigitChar c2 && isDigitChar c3 && isDigitChar c4 then
      some ([c1, c2, c3, c4], rest)
    else none
  | _ => none

/-- Greedy `\d{1,2}`. -/
def digits12 (s : Str) : Option (Str × Str) :=
  match s with
  | [] => none
  | c1 :: rest =>
    if isDigitChar c1 then
      match rest with
      | c2 :: rest2 =>
        if isDigitChar c2 then some ([c1, c2], rest2) else some ([c1], rest)
      | [] => some ([c1], [])
    else none

/-- Greedy `\d+`. -/
def digitsMany1 : Str → Option (Str × Str)
  | [] => none
  | c :: rest =>
    if isDigitChar c then
      match digitsMany1 rest with
      | some a => some (c :: a.1, a.2)
      | none => some ([c], rest)
    else none

/-- Greedy `[A-Za-z]+`. -/
def alpha1 : Str → Option (Str × Str)
  | [] => none
  | c :: rest =>
    if isAlphaEn c then
      match alpha1 rest with
      | some a => some (c :: a.1, a.2)
      | none => some ([c], rest)
    else none

/-- Greedy `[^\d\s]+`. -/
def nonDigitSpace1 : Str → Option (Str × Str)
  | [] => none
  | c :: rest =>
    if !isDigitChar c && !isSpaceChar c then
      match nonDigitSpace1 rest with
      | some a => some (c :: a.1, a.2)
      | none => some ([c], rest)
    else none

/-- Greedy `\s*`. -/
def wsMany : Str → Str
  | [] => []
  | c :: rest => if isSpaceChar c then wsMany rest else c :: rest

/-- Greedy `\s+`. -/
def ws1 (s : Str) : Option Str :=
  match s with
  | [] => none
  | c :: rest => if isSpaceChar c then some (wsMany rest) else none

/-- The separator class `[- or /]`. -/
def matchSep (s : Str) : Option Str :=
  match s with
  | [] => none
  | c :: rest => if c = '-' ∨ c = '/' then some rest else none

/-- A single literal character. -/
def matchLit (ch : Char) (s : Str) : Option Str :=
  match s with
  | [] => none
  | c :: rest => if c = ch then some rest else none

/-- Regex group `(?:,?\s+)`: an optional comma, then whitespace. -/
def commaWs (s : Str) : Option Str :=
  match s with
  | ',' :: rest => ws1 rest
  | _ => ws1 s

/-- Python's `str.strip()` on ASCII whitespace. -/
def pyStrip (s : Str) : Str :=
  ((((s.dropWhile isSpaceChar).reverse).dropWhile isSpaceChar).reverse)

/-- The normalization done by `parse`: strip, then Devanagari digits to
ASCII (`_normalize_nepali_digits`). -/
def normalizeInput (s : Str) : Str := from_devanagari (pyStrip s)

/-- Pattern 1, `'datetime'`:
`^(\d{4})[- or /](\d{1,2})[- or /](\d{1,2})\s+(\d{1,2}):(\d{2})(?::(\d{2}))?(?:\.(\d+))?$`.
Returns the seven groups (year, month, day, hour, minute, seconds?,
fraction?) as numbers, the optional groups as `Option`. -/
def matchDatetimePat (s : Str) :
    Option (Nat × Nat × Nat × Nat × Nat × Option Nat × Option Nat) :=
  (digits4 s).bind fun g1 =>
  (matchSep g1.2).bind fun r2 =>
  (digits12 r2).bind fun g2 =>
  (matchSep g2.2).bind fun r4 =>
  (digits12 r4).bind fun g3 =>
  (ws1 g3.2).bind fun r6 =>
  (digits12 r6).bind fun g4 =>
  (matchLit ':' g4.2).bind fun r8 =>
  (digits2 r8).bind fun g5 =>
  let base := (parseNat g1.1, parseNat g2.1, parseNat g3.1, parseNat g4.1,
    parseNat g5.1)
  match g5.2 with
  | [] => some (base.1, base.2.1, base.2.2.1, base.2.2.2.1, base.2.2.2.2,
      none, none)
  | ':' :: r9 =>
    (digits2 r9).bind fun g6 =>
    (match g6.2 with
     | [] => some (base.1, base.2.1, base.2.2.1, base.2.2.2.1, base.2.2.2.2,
         some (parseNat g6.1), none)
     | '.' :: r10 =>
       (digitsMany1 r10).bind fun g7 =>
       if g7.2 = [] then
         some (base.1, base.2.1, base.2.2.1, base.2.2.2.1, base.2.2.2.2,
           some (parseNat g6.1), some (parseNat g7.1))
       else none
     | _ => none)
  | '.' :: r9 =>
    (digitsMany1 r9).bind fun g7 =>
    if g7.2 = [] then
      some (base.1, base.2.1, base.2.2.1, base.2.2.2.1, base.2.2.2.2,
        none, some (parseNat g7.1))
    else none
  | _ => none

/-- Pattern 2, `'date'`: `^(\d{4})[- or /](\d{1,2})[- or /](\d{1,2})$`. -/
def matchDatePat (s : Str) : Option (Nat × Nat × Nat) :=
  (digits4 s).bind fun g1 =>
  (matchSep g1.2).bind fun r2 =>
  (digits12 r2).bind fun g2 =>
  (matchSep g2.2).bind fun r4 =>
  (digits12 r4).bind fun g3 =>
  if g3.2 = [] then some (parseNat g1.1, parseNat g2.1, parseNat g3.1) else none

/-- Pattern 3, `'named_month'` (English):
`^([A-Za-z]+)\s+(\d{1,2})(?:,?\s+)(\d{4})$`; groups (name, day, year). -/
def matchNamedEnPat (s : Str) : Option (Str × Nat × Nat) :=
  (alpha1 s).bind fun g1 =>
  (ws1 g1.2).bind fun r2 =>
  (digits12 r2).bind fun g2 =>
  (commaWs g2.2).bind fun r3 =>
  (digits4 r3).bind fun g3 =>
  if g3.2 = [] then some (g1.1, parseNat g2.1, parseNat g3.1) else none

/-- Pattern 4, `'named_month'` (Nepali): `^([^\d\s]+)\s+(\d{1,2})(?:,?\s+)(\d{4})$`. -/
def matchNamedNePat (s : Str) : Option (Str × Nat × Nat) :=
  (nonDigitSpace1 s).bind fun g1 =>
  (ws1 g1.2).bind fun r2 =>
  (digits12 r2).bind fun g2 =>
  (commaWs g2.2).bind fun r3 =>
  (digits4 r3).bind fun g3 =>
  if g3.2 = [] then some (g1.1, parseNat g2.1, parseNat g3.1) else none

/-- Pattern 5, `'day_month_year'`: `^(\d{1,2})\s+([A-Za-z]+)(?:,?\s+)(\d{4})$`;
groups (day, name, year). -/
def matchDayMonthYearPat (s : Str) : Option (Nat × Str × Nat) :=
  (digits12 s).bind fun g1 =>
  (ws1 g1.2).bind fun r2 =>
  (alpha1 r2).bind fun g2 =>
  (commaWs g2.2).bind fun r3 =>
  (digits4 r3).bind fun g3 =>
  if g3.2 = [] then some (parseNat g1.1, g2.1, parseNat g3.1) else none

/-- Pattern 6, `'datetime_ampm'`:
`^(\d{4})[- or /](\d{1,2})[- or /](\d{1,2})\s+(\d{1,2}):(\d{2})\s*(AM|PM|am|pm)$`.
The last group is returned already uppercased (`groups[5].upper()`). -/
def matchAmpmPat (s : Str) :
    Option (Nat × Nat × Nat × Nat × Nat × Str) :=
  (digits4 s).bind fun g1 =>
  (matchSep g1.2).bind fun r2 =>
  (digits12 r2).bind fun g2 =>
  (matchSep g2.2).bind fun r4 =>
  (digits12 r4).bind fun g3 =>
  (ws1 g3.2).bind fun r6 =>
  (digits12 r6).bind fun g4 =>
  (matchLit ':' g4.2).bind fun r8 =>
  (digits2 r8).bind fun g5 =>
  let rest := wsMany g5.2
  let base := (parseNat g1.1, parseNat g2.1, parseNat g3.1, parseNat g4.1,
    parseNat g5.1)
  if rest = "AM".toList ∨ rest = "am".toList then
    some (base.1, base.2.1, base.2.2.1, base.2.2.2.1, base.2.2.2.2, "AM".toList)
  else if rest = "PM".toList ∨ rest = "pm".toList then
    some (base.1, base.2.1, base.2.2.1, base.2.2.2.1, base.2.2.2.2, "PM".toList)
  else none

/-- Pattern 7, `'short_year'`: `^(\d{2})[- or /](\d{1,2})[- or /](\d{1,2})$`. -/
def matchShortYearPat (s : Str) : Option (Nat × Nat × Nat) :=
  (digits2 s).bind fun g1 =>
  (matchSep g1.2).bind fun r2 =>
  (digits12 r2).bind fun g2 =>
  (matchSep g2.2).bind fun r4 =>
  (digits12 r4).bind fun g3 =>
  if g3.2 = [] then some (parseNat g1.1, parseNat g2.1, parseNat g3.1) else none

/-- `_MONTH_NAME_TO_NUM` as an association list in insertion order: English
full names and 3-letter prefixes (lowercased), then formal Nepali names,
then Sanskrit names.  No two entries map the same key to different values,
so first-match lookup agrees with the Python dict. -/
def monthNamePairs : List (Str × Nat) :=
  (MONTHS_ENGLISH.enumFrom 1).map (fun p => (p.2.map Char.toLower, p.1)) ++
  (MONTHS_ENGLISH.enumFrom 1).map (fun p => ((p.2.map Char.toLower).take 3, p.1)) ++
  (MONTHS_NEPALI.enumFrom 1).map (fun p => (p.2, p.1)) ++
  (MONTHS_NEPALI_SANSKRIT.enumFrom 1).map (fun p => (p.2, p.1))

/-- Embedding of `_parse_month_name`: exact lookup, then lowercased. -/
def parseMonthName (name : Str) : Option Nat :=
  match monthNamePairs.lookup name with
  | some m => some m
  | none => monthNamePairs.lookup (name.map Char.toLower)

/-- Result of the auto-detect parser: a `BSDate` or a `BSDateTime`,
depending only on which pattern matched. -/
inductive PValue where
  | date (b : BSDate)
  | datetime (t : BSDateTime)
deriving DecidableEq

/-- The `'datetime'` branch of `parse`: validate the date then construct a
`BSDateTime`; a failed validation or constructor exception continues the
loop (`none`). -/
def tryDatetime (cal : Calendar) (s : Str) : Option PValue :=
  (matchDatetimePat s).bind fun g =>
    if is_valid_bs_date cal g.1 g.2.1 g.2.2.1 then
      match BSDateTime.mk? cal g.1 g.2.1 g.2.2.1 g.2.2.2.1 g.2.2.2.2.1
          (g.2.2.2.2.2.1.getD 0) (g.2.2.2.2.2.2.getD 0) none with
      | .ok t => some (.datetime t)
      | .error _ => none
    else none

/-- The `'date'` branch of `parse`. -/
def tryDate (cal : Calendar) (s : Str) : Option PValue :=
  (matchDatePat s).bind fun g =>
    if is_valid_bs_date cal g.1 g.2.1 g.2.2 then
      match BSDate.mk? cal g.1 g.2.1 g.2.2 with
      | .ok b => some (.date b)
      | .error _ => none
    else none

/-- The `'named_month'` branch shared by patterns 3 and 4: resolve the
month name; `if month and is_valid_bs_date(...)`. -/
def tryNamed (cal : Calendar) (g : Str × Nat × Nat) : Option PValue :=
  match parseMonthName g.1 with
  | none => none
  | some m =>
    if is_valid_bs_date cal g.2.2 m g.2.1 then
      match BSDate.mk? cal g.2.2 m g.2.1 with
      | .ok b => some (.date b)
      | .error _ => none
    else none

/-- Pattern 3 with its branch. -/
def tryNamedEn (cal : Calendar) (s : Str) : Option PValue :=
  (matchNamedEnPat s).bind (tryNamed cal)

/-- Pattern 4 with its branch. -/
def tryNamedNe (cal : Calendar) (s : Str) : Option PValue :=
  (matchNamedNePat s).bind (tryNamed cal)

/-- The `'day_month_year'` branch (pattern 5). -/
def tryDayMonthYear (cal : Calendar) (s : Str) : Option PValue :=
  (matchDayMonthYearPat s).bind fun g =>
    tryNamed cal (g.2.1, g.1, g.2.2)

/-- The `'datetime_ampm'` branch (pattern 6): 12-hour conversion, then
validation and construction (seconds fixed at 0). -/
def tryAmpm (cal : Calendar) (s : Str) : Option PValue :=
  (matchAmpmPat s).bind fun g =>
    let hour0 := g.2.2.2.1
    let hour :=
      if g.2.2.2.2.2 = "PM".toList ∧ hour0 ≠ 12 then hour0 + 12
      else if g.2.2.2.2.2 = "AM".toList ∧ hour0 = 12 then 0
      else hour0
    if is_valid_bs_date cal g.1 g.2.1 g.2.2.1 then
      match BSDateTime.mk? cal g.1 g.2.1 g.2.2.1 hour g.2.2.2.2.1 0 0 none with
      | .ok t => some (.datetime t)
      | .error _ => none
    else none

/-- The `'short_year'` branch (pattern 7): century split at 50. -/
def tryShortYear (cal : Calendar) (s : Str) : Option PValue :=
  (matchShortYearPat s).bind fun g =>
    let year := if g.1 < 50 then 2000 + g.1 else 1900 + g.1
    if is_valid_bs_date cal year g.2.1 g.2.2 then
      match BSDate.mk? cal year g.2.1 g.2.2 with
      | .ok b => some (.date b)
      | .error _ => none
    else none

/-- `_DATE_PATTERNS` with their branches, in source order. -/
def autoPatterns (cal : Calendar) : List (Str → Option PValue) :=
  [tryDatetime cal, tryDate cal, tryNamedEn cal, tryNamedNe cal,
   tryDayMonthYear cal, tryAmpm cal, tryShortYear cal]

/-- The `for pattern, pattern_type in _DATE_PATTERNS` loop: first branch
that returns a value wins; a non-matching or non-validating or raising
branch falls through to the next. -/
def firstSome : List (Str → Option PValue) → Str → Option PValue
  | [], _ => none
  | f :: fs, s =>
    match f s with
    | some v => some v
    | none => firstSome fs s

/-- Embedding of `parse(date_string)`: normalize, try the patterns in
order, raise `ValueError` when none matches and validates. -/
def parse (cal : Calendar) (input : Str) : Except String PValue :=
  match firstSome (autoPatterns cal) (normalizeInput input) with
  | some v => .ok v
  | none => .error "Could not parse date string"

example : parse mcal "2079-02-15".toList = .ok (.date ⟨2079, 2, 15⟩) := by decide
example : parse mcal "2079-02-15 15:23:45".toList
    = .ok (.datetime ⟨2079, 2, 15, 15, 23, 45, 0, none⟩) := by decide
example : parse mcal "2079-02-15 15:23".toList
    = .ok (.datetime ⟨2079, 2, 15, 15, 23, 0, 0, none⟩) := by decide
example : parse mcal "Jestha 15, 2079".toList = .ok (.date ⟨2079, 2, 15⟩) := by decide
example : parse mcal "२०७८-०१-१८".toList = .ok (.date ⟨2078, 1, 18⟩) := by decide
example : parse mcal "2079-02-15 5:23 PM".toList
    = .ok (.datetime ⟨2079, 2, 15, 17, 23, 0, 0, none⟩) := by decide
example : parse mcal "79-02-15".toList = .ok (.date ⟨1979, 2, 15⟩) := by decide
example : parse mcal "15 Magh 2080".toList = .ok (.date ⟨2080, 10, 15⟩) := by decide
example : parse mcal "2080-13-01".toList = .error "Could not parse date string" := by
  decide

theorem firstSome_none (l : List (Str → Option PValue)) (ns : Str)
    (h : ∀ f ∈ l, f ns = none) : firstSome l ns = none := by
  induction l with
  | nil => rfl
  | cons f fs ih =>
    simp only [firstSome]
    rw [h f (List.mem_cons_self f fs)]
    exact ih fun g hg => h g (List.mem_cons_of_mem f hg)

/-- C6: the auto-detect parser tries the literal patterns in the fixed
source order.  If the first (datetime-with-seconds) pattern produces a
value, `parse` returns exactly that value; a structurally matching pattern
whose date fields fail validation contributes nothing (the loop continues);
if every pattern fails to match-and-validate, `parse` raises.  Concretely,
"2079-02-15 15:23:45" resolves through the datetime pattern, and
"2080-13-01" matches the date pattern structurally (month 13) but falls
through every pattern and raises. -/
theorem C6_autodetect_first_match (cal : Calendar) :
    (∀ s v, tryDatetime cal (normalizeInput s) = some v → parse cal s = .ok v) ∧
    (∀ s y m d hh mi so uo,
      matchDatetimePat (normalizeInput s) = some (y, m, d, hh, mi, so, uo) →
      is_valid_bs_date cal y m d = false →
      tryDatetime cal (normalizeInput s) = none) ∧
    (∀ s, (∀ f ∈ autoPatterns cal, f (normalizeInput s) = none) →
      parse cal s = .error "Could not parse date string") ∧
    (parse mcal "2079-02-15 15:23:45".toList
      = .ok (.datetime ⟨2079, 2, 15, 15, 23, 45, 0, none⟩)) ∧
    (matchDatePat (normalizeInput "2080-13-01".toList) = some (2080, 13, 1) ∧
      is_valid_bs_date mcal 2080 13 1 = false ∧
      parse mcal "2080-13-01".toList = .error "Could not parse date string") := by
  refine ⟨?_, ?_, ?_, by decide, by decide, by decide, by decide⟩
  · intro s v h
    unfold parse autoPatterns
    simp only [firstSome, h]
  · intro s y m d hh mi so uo hm hv
    unfold tryDatetime
    rw [hm]
    simp only [Option.bind, hv, Bool.false_eq_true, if_false]
  · intro s h
    unfold parse
    rw [firstSome_none _ _ h]

/-- Witness for C6: the priority conjunct applied at the concrete
datetime-with-seconds input, and the failure conjunct at an unparseable
input. -/
theorem C6_autodetect_first_match_witness :
    parse mcal "2079-02-15 15:23:45".toList
      = .ok (.datetime ⟨2079, 2, 15, 15, 23, 45, 0, none⟩) ∧
    parse mcal "next tuesday".toList = .error "Could not parse date string" :=
  ⟨(C6_autodetect_first_match mcal).1 "2079-02-15 15:23:45".toList
      (.datetime ⟨2079, 2, 15, 15, 23, 45, 0, none⟩) (by decide),
   (C6_autodetect_first_match mcal).2.2.1 "next tuesday".toList (by decide)⟩

/-! The format-code parse engine (`_compile_format` and `parse_bs_datetime`
in `parser.py`).  A compiled pattern is modelled as a token list: the
source's successive textual `str.replace` of each escaped code by its named
capture group is mirrored by replacing the code's character sequence
(within literal tokens) by a group token, in `_FORMAT_CODE_PATTERNS` dict
order, and the final whitespace relaxation replaces each literal space by a
one-or-more-whitespace token. -/

/-- Devanagari digit class `[०-९]` (scalar values 2406..2415). -/
def isDevDigitChar (c : Char) : Bool := decide (2406 ≤ c.toNat ∧ c.toNat ≤ 2415)

/-- Take exactly `k` characters of class `p`. -/
def splitCls (p : Char → Bool) : Nat → Str → Option (Str × Str)
  | 0, s => some ([], s)
  | _ + 1, [] => none
  | k + 1, c :: rest =>
    if p c then (splitCls p k rest).map (fun a => (c :: a.1, a.2)) else none

/-- One token of a compiled pattern: a literal character, one-or-more
whitespace (the relaxed literal space), a named digit-class capture group
with length bounds, or a named literal-alternation group. -/
inductive Tok where
  | lit (c : Char)
  | ws
  | cls (name : Char) (dev : Bool) (mn mx : Nat)
  | alt (name : Char) (alts : List Str)
deriving DecidableEq

/-- Scan of Python's `str.replace` lifted to token lists (fuel-structural,
like `strReplaceAux`). -/
def tokReplaceAux (pat rep : List Tok) : Nat → List Tok → List Tok
  | _, [] => []
  | 0, s => s
  | fuel + 1, c :: rest =>
    if pat.isPrefixOf (c :: rest) then
      rep ++ tokReplaceAux pat rep fuel (List.drop (pat.length - 1) rest)
    else c :: tokReplaceAux pat rep fuel rest

/-- Python's `str.replace` on token lists (nonempty pattern). -/
def tokReplace (s pat rep : List Tok) : List Tok :=
  if pat.isEmpty then s else tokReplaceAux pat rep s.length s

/-- `_FORMAT_CODE_PATTERNS` in dict order, with each code's capture-group
token: ASCII-digit groups for `%Y %y %m %d %H %I %M %S %f`, Devanagari
groups for `%K %k %n %D %h %i %s`, literal alternations for `%p` and `%P`,
and `%%` replaced by a literal percent. -/
def fmtCodeToks : List (Str × List Tok) :=
  [("%Y".toList, [.cls 'Y' false 4 4]), ("%y".toList, [.cls 'y' false 2 2]),
   ("%m".toList, [.cls 'm' false 1 2]), ("%d".toList, [.cls 'd' false 1 2]),
   ("%K".toList, [.cls 'K' true 4 4]), ("%k".toList, [.cls 'k' true 2 2]),
   ("%n".toList, [.cls 'n' true 1 2]), ("%D".toList, [.cls 'D' true 1 2]),
   ("%H".toList, [.cls 'H' false 1 2]), ("%I".toList, [.cls 'I' false 1 2]),
   ("%M".toList, [.cls 'M' false 1 2]), ("%S".toList, [.cls 'S' false 1 2]),
   ("%f".toList, [.cls 'f' false 1 6]),
   ("%p".toList, [.alt 'p' ["AM".toList, "PM".toList, "am".toList, "pm".toList]]),
   ("%h".toList, [.cls 'h' true 1 2]), ("%i".toList, [.cls 'i' true 1 2]),
   ("%s".toList, [.cls 's' true 1 2]),
   ("%P".toList, [.alt 'P' ["बिहान".toList, "दिउँसो".toList, "बेलुका".toList,
     "राति".toList]]),
   ("%%".toList, [.lit '%'])]

/-- Embedding of `_compile_format(fmt)`: literal characters, codes replaced
by group tokens in dict order, then every literal space relaxed to `\s+`. -/
def compileFormat (fmt : Str) : List Tok :=
  let t1 := fmtCodeToks.foldl
    (fun acc p => tokReplace acc (p.1.map Tok.lit) p.2) (fmt.map Tok.lit)
  tokReplace t1 [.lit ' '] [.ws]

mutual
/-- Anchored regex matching for a compiled pattern, with full backtracking:
a group tries its longest admissible capture first and shortens on failure
of the remainder (Python `re` greedy semantics).  Returns the named
captures in pattern order. -/
def matchToks : List Tok → Str → Option (List (Char × Str))
  | [], s => if s.isEmpty then some [] else none
  | .lit c :: ts, s =>
    (match s with
     | [] => none
     | x :: xs => if x = c then matchToks ts xs else none)
  | .ws :: ts, s => matchWs ts s s.length
  | .cls name dev mn mx :: ts, s =>
    matchCls name (if dev then isDevDigitChar else isDigitChar) mn ts s
      (min mx s.length)
  | .alt name alts :: ts, s => matchAlt name ts s alts
termination_by ts s => (ts.length, 0, 0)

/-- Greedy `\s+` with backtracking over the run length. -/
def matchWs : List Tok → Str → Nat → Option (List (Char × Str))
  | _, _, 0 => none
  | ts, s, k + 1 =>
    match splitCls isSpaceChar (k + 1) s with
    | some a =>
      (match matchToks ts a.2 with
       | some gs => some gs
       | none => matchWs ts s k)
    | none => matchWs ts s k
termination_by ts s k => (ts.length, 1, k)

/-- Greedy digit-class group with backtracking from `k` characters down to
the group's minimum. -/
def matchCls (name : Char) (p : Char → Bool) (mn : Nat) (ts : List Tok)
    (s : Str) : Nat → Option (List (Char × Str))
  | 0 => none
  | k + 1 =>
    if k + 1 < mn then none
    else
      match splitCls p (k + 1) s with
      | some a =>
        (match matchToks ts a.2 with
         | some gs => some ((name, a.1) :: gs)
         | none => matchCls name p mn ts s k)
      | none => matchCls name p mn ts s k
termination_by k => (ts.length, 1, k)

/-- Literal alternation group, alternatives tried left to right. -/
def matchAlt (name : Char) (ts : List Tok) (s : Str) :
    List Str → Option (List (Char × Str))
  | [] => none
  | a :: rest =>
    if a.isPrefixOf s then
      (match matchToks ts (s.drop a.length) with
       | some gs => some ((name, a) :: gs)
       | none => matchAlt name ts s rest)
    else matchAlt name ts s rest
termination_by alts => (ts.length, 1, alts.length)
end

/-- Embedding of `parse_bs_datetime(date_string, fmt)`: compile, anchored
match (`FormatMismatch` on failure), then field extraction with the
source's precedence chains (`Y`/`K`/`y`/`k`, `m`/`n`, `d`/`D`, `H`/`h`/`I`,
`M`/`i`, `S`/`s`), 2-digit years resolved as `2000 + y`, `%f` right-padded
to six digits, AM/PM reinterpretation of the hour, the Nepali period group
deliberately ignored (`pass` in the source), and finally the validating
`BSDateTime` constructor. -/
def parse_bs_datetime (cal : Calendar) (ds fmt : Str) : Except String BSDateTime :=
  match matchToks (compileFormat fmt) ds with
  | none => .error "time data does not match format"
  | some gs =>
    let year :=
      match gs.lookup 'Y' with
      | some c => parseNat c
      | none =>
        match gs.lookup 'K' with
        | some c => parseNat (from_devanagari c)
        | none =>
          match gs.lookup 'y' with
          | some c => 2000 + parseNat c
          | none =>
            match gs.lookup 'k' with
            | some c => 2000 + parseNat (from_devanagari c)
            | none => 0
    let month :=
      match gs.lookup 'm' with
      | some c => parseNat c
      | none =>
        match gs.lookup 'n' with
        | some c => parseNat (from_devanagari c)
        | none => 0
    let day :=
      match gs.lookup 'd' with
      | some c => parseNat c
      | none =>
        match gs.lookup 'D' with
        | some c => parseNat (from_devanagari c)
        | none => 0
    let hour :=
      match gs.lookup 'H' with
      | some c => parseNat c
      | none =>
        match gs.lookup 'h' with
        | some c => parseNat (from_devanagari c)
        | none =>
          match gs.lookup 'I' with
          | some c => parseNat c
          | none => 0
    let minute :=
      match gs.lookup 'M' with
      | some c => parseNat c
      | none =>
        match gs.lookup 'i' with
        | some c => parseNat (from_devanagari c)
        | none => 0
    let second :=
      match gs.lookup 'S' with
      | some c => parseNat c
      | none =>
        match gs.lookup 's' with
        | some c => parseNat (from_devanagari c)
        | none => 0
    let microsecond :=
      match gs.lookup 'f' with
      | some c => parseNat ((c ++ List.replicate (6 - c.length) '0').take 6)
      | none => 0
    let hour2 :=
      match gs.lookup 'p' with
      | some ap =>
        let apU := ap.map Char.toUpper
        if apU = "PM".toList ∧ hour ≠ 12 then hour + 12
        else if apU = "AM".toList ∧ hour = 12 then 0
        else hour
      | none => hour
    BSDateTime.mk? cal year month day hour2 minute second microsecond none

/-! Number-rendering lemmas: zero-padded decimal strings consist of ASCII
digits, have the requested width, and parse back to the rendered number. -/

theorem digitChar_isDigit (k : Nat) : isDigitChar (digitChar k) = true := by
  unfold digitChar
  split <;> decide

theorem digitChar_val (k : Nat) (h : k < 10) : (digitChar k).toNat = 48 + k := by
  interval_cases k <;> decide

theorem decToStrAux_digits (fuel n : Nat) :
    ∀ c ∈ decToStrAux fuel n, isDigitChar c = true := by
  induction fuel generalizing n with
  | zero => intro c hc; simp [decToStrAux] at hc
  | succ fuel ih =>
    intro c hc
    unfold decToStrAux at hc
    split at hc
    · simp at hc
    · rcases List.mem_cons.mp hc with rfl | hc
      · exact digitChar_isDigit _
      · exact ih _ c hc

theorem decToStr_digits (n : Nat) : ∀ c ∈ decToStr n, isDigitChar c = true := by
  intro c hc
  exact decToStrAux_digits n n c (List.mem_reverse.mp hc)

theorem zero_isDigit : isDigitChar '0' = true := by decide

theorem fmt0_digits (w n : Nat) : ∀ c ∈ fmt0 w n, isDigitChar c = true := by
  intro c hc
  rcases List.mem_append.mp hc with hc | hc
  · rw [List.eq_of_mem_replicate hc]
    exact zero_isDigit
  · exact decToStr_digits n c hc

theorem digit_ne_pct {c : Char} (h : isDigitChar c = true) : c ≠ '%' := by
  intro hc
  subst hc
  simp [isDigitChar] at h

theorem decToStrAux_succ (fuel n : Nat) (hn : n ≠ 0) :
    decToStrAux (fuel + 1) n = digitChar (n % 10) :: decToStrAux fuel (n / 10) := by
  conv_lhs => unfold decToStrAux
  rw [if_neg hn]

/-- Folding the decimal-parse step over the digits of `n` recovers `n`. -/
theorem decToStrAux_parse (fuel : Nat) :
    ∀ n a, n ≤ fuel →
      List.foldl (fun a c => 10 * a + (c.toNat - 48)) a (decToStrAux fuel n).reverse
        = a * 10 ^ (decToStrAux fuel n).length + n := by
  induction fuel with
  | zero =>
    intro n a h
    have : n = 0 := by omega
    subst this
    simp [decToStrAux]
  | succ fuel ih =>
    intro n a h
    by_cases hn : n = 0
    · subst hn
      simp [decToStrAux]
    · rw [decToStrAux_succ fuel n hn]
      simp only [List.reverse_cons, List.foldl_append, List.foldl_cons,
        List.foldl_nil, List.length_cons]
      rw [ih (n / 10) a (by omega)]
      rw [digitChar_val (n % 10) (by omega)]
      have hpow : a * 10 ^ ((decToStrAux fuel (n / 10)).length + 1)
          = a * 10 ^ (decToStrAux fuel (n / 10)).length * 10 := by
        rw [pow_succ, ← Nat.mul_assoc]
      omega

theorem parseNat_decToStr (n : Nat) : parseNat (decToStr n) = n := by
  unfold parseNat decToStr
  rw [decToStrAux_parse n n 0 (Nat.le_refl n)]
  omega

theorem parseNat_replicate_zero (k : Nat) (s : Str) :
    parseNat (List.replicate k '0' ++ s) = parseNat s := by
  unfold parseNat
  rw [List.foldl_append]
  congr 1
  induction k with
  | zero => rfl
  | succ k ih => simpa [List.replicate_succ] using ih

theorem parseNat_fmt0 (w n : Nat) : parseNat (fmt0 w n) = n := by
  unfold fmt0
  rw [parseNat_replicate_zero, parseNat_decToStr]

theorem decToStrAux_len (fuel : Nat) :
    ∀ n w, n ≤ fuel → n < 10 ^ w → (decToStrAux fuel n).length ≤ w := by
  induction fuel with
  | zero =>
    intro n w h hw
    have : n = 0 := by omega
    subst this
    simp [decToStrAux]
  | succ fuel ih =>
    intro n w h hw
    by_cases hn : n = 0
    · subst hn
      simp [decToStrAux]
    · rw [decToStrAux_succ fuel n hn, List.length_cons]
      have hw1 : 0 < w := by
        by_contra hcon
        push_neg at hcon
        interval_cases w
        simp at hw
        omega
      have hpow : 10 ^ w = 10 * 10 ^ (w - 1) := by
        calc 10 ^ w = 10 ^ (1 + (w - 1)) := by congr 1; omega
        _ = 10 * 10 ^ (w - 1) := by rw [pow_add, pow_one]
      have := ih (n / 10) (w - 1) (by omega) (by omega)
      omega

theorem fmt0_len (w n : Nat) (h : n < 10 ^ w) : (fmt0 w n).length = w := by
  unfold fmt0
  have hlen : (decToStr n).length ≤ w := by
    unfold decToStr
    rw [List.length_reverse]
    exact decToStrAux_len n n w (Nat.le_refl n) h
  rw [List.length_append, List.length_replicate]
  omega

/-! Skip lemmas for the replacement loop: a percent-headed pattern can
never match inside a prefix that contains no percent sign, so `strContains`
and `strReplace` pass such prefixes through unchanged. -/

theorem prefix_pct_cons_false (pat : Str) (hp : pat.head? = some '%')
    (c : Char) (s : Str) (hc : c ≠ '%') : pat.isPrefixOf (c :: s) = false := by
  cases pat with
  | nil => simp at hp
  | cons q p' =>
    have hq : q = '%' := by simpa using hp
    subst hq
    have hb : ('%' == c) = false := by
      rw [beq_eq_false_iff_ne]
      exact fun h => hc h.symm
    show (('%' == c) && List.isPrefixOf p' s) = false
    rw [hb, Bool.false_and]

theorem strContains_cons_skip (pat : Str) (hp : pat.head? = some '%')
    (c : Char) (s : Str) (hc : c ≠ '%') :
    strContains (c :: s) pat = strContains s pat := by
  have h : strContains (c :: s) pat = (pat.isPrefixOf (c :: s) || strContains s pat) := rfl
  rw [h, prefix_pct_cons_false pat hp c s hc, Bool.false_or]

theorem strContains_skip_run (pat : Str) (hp : pat.head? = some '%') :
    ∀ l s, (∀ c ∈ l, c ≠ '%') → strContains (l ++ s) pat = strContains s pat := by
  intro l
  induction l with
  | nil => intro s _; rfl
  | cons c l ih =>
    intro s h
    rw [List.cons_append, strContains_cons_skip pat hp c _ (h c (List.mem_cons_self c l))]
    exact ih s fun x hx => h x (List.mem_cons_of_mem c hx)

theorem strContains_no_pct (pat : Str) (hp : pat.head? = some '%') :
    ∀ s, (∀ c ∈ s, c ≠ '%') → strContains s pat = false := by
  intro s
  induction s with
  | nil =>
    intro _
    cases pat with
    | nil => simp at hp
    | cons q p' => rfl
  | cons c s ih =>
    intro h
    rw [strContains_cons_skip pat hp c s (h c (List.mem_cons_self c s))]
    exact ih fun x hx => h x (List.mem_cons_of_mem c hx)

theorem strReplaceAux_step_skip (pat rep : Str) (hp : pat.head? = some '%')
    (n : Nat) (c : Char) (rest : Str) (hc : c ≠ '%') :
    strReplaceAux pat rep (n + 1) (c :: rest) = c :: strReplaceAux pat rep n rest := by
  have h : strReplaceAux pat rep (n + 1) (c :: rest)
      = if pat.isPrefixOf (c :: rest) then
          rep ++ strReplaceAux pat rep n (List.drop (pat.length - 1) rest)
        else c :: strReplaceAux pat rep n rest := rfl
  rw [h, prefix_pct_cons_false pat hp c rest hc, if_neg Bool.false_ne_true]

theorem strReplace_skip_run (pat rep : Str) (hp : pat.head? = some '%') :
    ∀ l s, (∀ c ∈ l, c ≠ '%') →
      strReplace (l ++ s) pat rep = l ++ strReplace s pat rep := by
  have hpe : pat.isEmpty = false := by
    cases pat with
    | nil => simp at hp
    | cons q p' => rfl
  intro l
  induction l with
  | nil => intro s _; rfl
  | cons c l ih =>
    intro s h
    have h1 : strReplace ((c :: l) ++ s) pat rep
        = strReplaceAux pat rep ((c :: l) ++ s).length ((c :: l) ++ s) := by
      unfold strReplace
      rw [hpe, if_neg Bool.false_ne_true]
    have h2 : strReplace (l ++ s) pat rep
        = strReplaceAux pat rep (l ++ s).length (l ++ s) := by
      unfold strReplace
      rw [hpe, if_neg Bool.false_ne_true]
    rw [h1, List.cons_append, List.length_cons,
      strReplaceAux_step_skip pat rep hp _ c _ (h c (List.mem_cons_self c l)),
      ← h2, ih s (fun x hx => h x (List.mem_cons_of_mem c hx)), List.cons_append]

theorem formatStep_skip (cal : Calendar) (style : Str) (v : FmtValue)
    (s code : Str) (hc : strContains s code = false) :
    formatStep cal style v s code = s := by
  unfold formatStep
  rw [hc, if_neg Bool.false_ne_true]

theorem formatStep_apply (cal : Calendar) (style : Str) (v : FmtValue)
    (s code val : Str) (hc : strContains s code = true)
    (ha : applyCode cal style v code = some val) :
    formatStep cal style v s code = strReplace s code val := by
  unfold formatStep
  rw [hc, if_pos rfl, ha]

theorem foldSteps_skip (cal : Calendar) (style : Str) (v : FmtValue) :
    ∀ codes s, (∀ code ∈ codes, code.head? = some '%') → (∀ c ∈ s, c ≠ '%') →
      List.foldl (formatStep cal style v) s codes = s := by
  intro codes
  induction codes with
  | nil => intro s _ _; rfl
  | cons code codes ih =>
    intro s hcode hs
    rw [List.foldl_cons,
      formatStep_skip cal style v s code
        (strContains_no_pct code (hcode code (List.mem_cons_self code codes)) s hs)]
    exact ih s (fun x hx => hcode x (List.mem_cons_of_mem code hx)) hs

/-- Rendering a date-only value with the ISO template `%Y-%m-%d` yields the
zero-padded year, month and day joined by dashes, for every calendar, style
and stored triple: the `%Y`, `%m` and `%d` codes substitute their fields,
`%y` and every later code never matches the remaining text. -/
theorem format_iso (cal : Calendar) (style : Str) (b : BSDate) :
    format_bs_datetime cal (.date b) "%Y-%m-%d".toList style
      = fmt0 4 b.year ++ '-' :: (fmt0 2 b.month ++ '-' :: fmt0 2 b.day) := by
  have hY : ∀ c ∈ fmt0 4 b.year, c ≠ '%' :=
    fun c hc => digit_ne_pct (fmt0_digits 4 b.year c hc)
  have hM : ∀ c ∈ fmt0 2 b.month, c ≠ '%' :=
    fun c hc => digit_ne_pct (fmt0_digits 2 b.month c hc)
  have hD : ∀ c ∈ fmt0 2 b.day, c ≠ '%' :=
    fun c hc => digit_ne_pct (fmt0_digits 2 b.day c hc)
  unfold format_bs_datetime
  rw [if_neg (by decide)]
  rw [show allFormatCodes = "%Y".toList :: "%y".toList :: "%m".toList :: "%d".toList ::
    ["%B".toList, "%b".toList, "%A".toList, "%a".toList, "%w".toList, "%j".toList,
     "%H".toList, "%I".toList, "%M".toList, "%S".toList, "%f".toList, "%p".toList,
     "%z".toList, "%Z".toList, "%%".toList, "%D".toList, "%n".toList, "%N".toList,
     "%K".toList, "%k".toList, "%G".toList, "%g".toList, "%h".toList, "%i".toList,
     "%s".toList, "%P".toList] from rfl]
  have haY : applyCode cal style (FmtValue.date b) "%Y".toList = some (fmt0 4 b.year) := rfl
  have ham : applyCode cal style (FmtValue.date b) "%m".toList = some (fmt0 2 b.month) := rfl
  have had : applyCode cal style (FmtValue.date b) "%d".toList = some (fmt0 2 b.day) := rfl
  rw [List.foldl_cons,
    formatStep_apply cal style (FmtValue.date b) _ _ _ (by decide) haY,
    show strReplace "%Y-%m-%d".toList "%Y".toList (fmt0 4 b.year)
      = fmt0 4 b.year ++ "-%m-%d".toList from rfl]
  have hy : strContains (fmt0 4 b.year ++ "-%m-%d".toList) "%y".toList = false := by
    rw [strContains_skip_run "%y".toList rfl _ _ hY]
    decide
  rw [List.foldl_cons, formatStep_skip cal style _ _ _ hy]
  have hcm : strContains (fmt0 4 b.year ++ "-%m-%d".toList) "%m".toList = true := by
    rw [strContains_skip_run "%m".toList rfl _ _ hY]
    decide
  rw [List.foldl_cons,
    formatStep_apply cal style (FmtValue.date b) _ _ _ hcm ham,
    strReplace_skip_run "%m".toList (fmt0 2 b.month) rfl _ _ hY,
    show strReplace "-%m-%d".toList "%m".toList (fmt0 2 b.month)
      = '-' :: (fmt0 2 b.month ++ "-%d".toList) from rfl]
  have hcd : strContains (fmt0 4 b.year ++ '-' :: (fmt0 2 b.month ++ "-%d".toList))
      "%d".toList = true := by
    rw [strContains_skip_run "%d".toList rfl _ _ hY,
      strContains_cons_skip "%d".toList rfl '-' _ (by decide),
      strContains_skip_run "%d".toList rfl _ _ hM]
    decide
  rw [List.foldl_cons,
    formatStep_apply cal style (FmtValue.date b) _ _ _ hcd had,
    strReplace_skip_run "%d".toList (fmt0 2 b.day) rfl _ _ hY,
    show ('-' :: (fmt0 2 b.month ++ "-%d".toList))
      = ['-'] ++ (fmt0 2 b.month ++ "-%d".toList) from rfl,
    strReplace_skip_run "%d".toList (fmt0 2 b.day) rfl ['-'] _ (by decide),
    List.singleton_append,
    strReplace_skip_run "%d".toList (fmt0 2 b.day) rfl _ _ hM,
    show strReplace "-%d".toList "%d".toList (fmt0 2 b.day)
      = '-' :: (fmt0 2 b.day ++ []) from rfl]
  rw [foldSteps_skip cal style (FmtValue.date b) _ _ (by decide) ?_]
  · simp only [List.append_nil]
  · intro c hc
    simp only [List.mem_append, List.mem_cons, List.not_mem_nil, or_false] at hc
    rcases hc with h | rfl | h | rfl | h
    · exact hY c h
    · decide
    · exact hM c h
    · decide
    · exact hD c h

/-! Matcher lemmas: a compiled three-group dash pattern matches exactly the
digit-group/dash/digit-group/dash/digit-group decomposition of a rendered
date string, capturing the three groups. -/

theorem splitCls_exact (p : Char → Bool) :
    ∀ l r, (∀ c ∈ l, p c = true) → splitCls p l.length (l ++ r) = some (l, r) := by
  intro l
  induction l with
  | nil => intro r _; rfl
  | cons c l ih =>
    intro r h
    simp only [List.length_cons, List.cons_append]
    have hstep : splitCls p (l.length + 1) (c :: (l ++ r))
        = if p c then (splitCls p l.length (l ++ r)).map (fun a => (c :: a.1, a.2))
          else none := rfl
    rw [hstep, h c (List.mem_cons_self c l), if_pos rfl,
      ih r fun x hx => h x (List.mem_cons_of_mem c hx)]
    rfl

theorem matchToks_nil_nil : matchToks [] [] = some [] := by
  rw [matchToks]
  rfl

theorem matchToks_lit_eq (c : Char) (ts : List Tok) (xs : Str) :
    matchToks (.lit c :: ts) (c :: xs) = matchToks ts xs := by
  rw [matchToks]
  simp

theorem matchToks_clsA (name : Char) (mn mx : Nat) (ts : List Tok) (s : Str) :
    matchToks (.cls name false mn mx :: ts) s
      = matchCls name isDigitChar mn ts s (min mx s.length) := by
  rw [matchToks]
  rfl

theorem matchCls_hit (name : Char) (p : Char → Bool) (mn : Nat) (ts : List Tok)
    (l r : Str) (k : Nat) (gs : List (Char × Str))
    (hlen : l.length = k + 1) (hmn : mn ≤ k + 1)
    (hl : ∀ c ∈ l, p c = true) (hts : matchToks ts r = some gs) :
    matchCls name p mn ts (l ++ r) (k + 1) = some ((name, l) :: gs) := by
  have hu : matchCls name p mn ts (l ++ r) (k + 1)
      = if k + 1 < mn then none else
        match splitCls p (k + 1) (l ++ r) with
        | some a =>
          (match matchToks ts a.2 with
           | some gs => some ((name, a.1) :: gs)
           | none => matchCls name p mn ts (l ++ r) k)
        | none => matchCls name p mn ts (l ++ r) k := by
    rw [matchCls]
  rw [hu, if_neg (by omega), ← hlen, splitCls_exact p l r hl]
  simp only [hts]

theorem matchCls_last (name : Char) (p : Char → Bool) (mn : Nat)
    (l : Str) (k : Nat) (hlen : l.length = k + 1) (hmn : mn ≤ k + 1)
    (hl : ∀ c ∈ l, p c = true) :
    matchCls name p mn [] l (k + 1) = some [(name, l)] := by
  have h := matchCls_hit name p mn [] l [] k [] hlen hmn hl matchToks_nil_nil
  rw [List.append_nil] at h
  exact h

/-- The compiled shape shared by `%Y-%m-%d` and `%y-%m-%d`: an exact-width
digit group, a dash, a 1-2 digit group, a dash, a 1-2 digit group.  On a
string assembled from digit runs of the advertised widths it matches and
captures the three runs. -/
theorem matchToks_dash3 (n1 n2 n3 : Char) (w1 : Nat) (hw : 0 < w1)
    (A B C : Str) (hA : A.length = w1) (hB : B.length = 2) (hC : C.length = 2)
    (dA : ∀ c ∈ A, isDigitChar c = true) (dB : ∀ c ∈ B, isDigitChar c = true)
    (dC : ∀ c ∈ C, isDigitChar c = true) :
    matchToks [.cls n1 false w1 w1, .lit '-', .cls n2 false 1 2, .lit '-',
        .cls n3 false 1 2] (A ++ '-' :: (B ++ '-' :: C))
      = some [(n1, A), (n2, B), (n3, C)] := by
  obtain ⟨k1, rfl⟩ : ∃ k, w1 = k + 1 := ⟨w1 - 1, by omega⟩
  have h5 : matchToks [Tok.cls n3 false 1 2] C = some [(n3, C)] := by
    rw [matchToks_clsA, hC, Nat.min_self]
    exact matchCls_last n3 isDigitChar 1 C 1 hC (by omega) dC
  have h4 : matchToks [Tok.lit '-', Tok.cls n3 false 1 2] ('-' :: C)
      = some [(n3, C)] := by
    rw [matchToks_lit_eq]
    exact h5
  have h3 : matchToks [Tok.cls n2 false 1 2, Tok.lit '-', Tok.cls n3 false 1 2]
      (B ++ '-' :: C) = some [(n2, B), (n3, C)] := by
    rw [matchToks_clsA,
      show (B ++ '-' :: C).length = B.length + (1 + C.length) by
        simp [List.length_append]; omega,
      hB, hC]
    exact matchCls_hit n2 isDigitChar 1 _ B ('-' :: C) 1 _ hB (by omega) dB h4
  have h2 : matchToks [Tok.lit '-', Tok.cls n2 false 1 2, Tok.lit '-',
      Tok.cls n3 false 1 2] ('-' :: (B ++ '-' :: C)) = some [(n2, B), (n3, C)] := by
    rw [matchToks_lit_eq]
    exact h3
  rw [matchToks_clsA,
    show (A ++ '-' :: (B ++ '-' :: C)).length = A.length + (1 + (B.length + (1 + C.length)))
      by simp [List.length_append]; omega,
    hA, hB, hC,
    show min (k1 + 1) (k1 + 1 + (1 + (2 + (1 + 2)))) = k1 + 1 from by omega]
  exact matchCls_hit n1 isDigitChar (k1 + 1) _ A ('-' :: (B ++ '-' :: C)) k1 _ hA
    (by omega) dA h2

theorem compile_iso : compileFormat "%Y-%m-%d".toList
    = [.cls 'Y' false 4 4, .lit '-', .cls 'm' false 1 2, .lit '-',
       .cls 'd' false 1 2] := by decide

theorem compile_shortyear : compileFormat "%y-%m-%d".toList
    = [.cls 'y' false 2 2, .lit '-', .cls 'm' false 1 2, .lit '-',
       .cls 'd' false 1 2] := by decide

/-- `parse_bs_datetime` against the template `%Y-%m-%d`, on any string made
of a 4-digit run, a dash, a 2-digit run, a dash and a 2-digit run: the
match captures the three runs and the extraction hands their numeric
values to the validating constructor with all time fields zero. -/
theorem parse_iso_template (cal : Calendar) (A B C : Str)
    (hA : A.length = 4) (hB : B.length = 2) (hC : C.length = 2)
    (dA : ∀ c ∈ A, isDigitChar c = true) (dB : ∀ c ∈ B, isDigitChar c = true)
    (dC : ∀ c ∈ C, isDigitChar c = true) :
    parse_bs_datetime cal (A ++ '-' :: (B ++ '-' :: C)) "%Y-%m-%d".toList
      = BSDateTime.mk? cal (parseNat A) (parseNat B) (parseNat C) 0 0 0 0 none := by
  unfold parse_bs_datetime
  rw [compile_iso, matchToks_dash3 'Y' 'm' 'd' 4 (by omega) A B C hA hB hC dA dB dC]
  rfl

/-- `parse_bs_datetime` against the template `%y-%m-%d` on the same string
shape with a 2-digit year run: the year handed to the constructor is
always `2000 +` the run's value, whatever that value is. -/
theorem parse_shortyear_template (cal : Calendar) (A B C : Str)
    (hA : A.length = 2) (hB : B.length = 2) (hC : C.length = 2)
    (dA : ∀ c ∈ A, isDigitChar c = true) (dB : ∀ c ∈ B, isDigitChar c = true)
    (dC : ∀ c ∈ C, isDigitChar c = true) :
    parse_bs_datetime cal (A ++ '-' :: (B ++ '-' :: C)) "%y-%m-%d".toList
      = BSDateTime.mk? cal (2000 + parseNat A) (parseNat B) (parseNat C) 0 0 0 0 none := by
  unfold parse_bs_datetime
  rw [compile_shortyear, matchToks_dash3 'y' 'm' 'd' 2 (by omega) A B C hA hB hC dA dB dC]
  rfl

/-- C7: format/parse round trip on the ISO template.  For every calendar
table satisfying the spec invariant, every valid BS date value and every
style, rendering with `%Y-%m-%d` and parsing the result back with the same
template via `parse_bs_datetime` succeeds and returns a value whose year,
month and day equal those of the original (time fields zero). -/
theorem C7_iso_roundtrip (cal : Calendar) (hg : GoodTable cal) (b : BSDate)
    (hb : is_valid_bs_date cal b.year b.month b.day = true) (style : Str) :
    parse_bs_datetime cal
        (format_bs_datetime cal (.date b) "%Y-%m-%d".toList style)
        "%Y-%m-%d".toList
      = .ok ⟨b.year, b.month, b.day, 0, 0, 0, 0, none⟩ := by
  obtain ⟨hy1, hy2, hm1, hm2, hd1, hd2⟩ :=
    (is_valid_bs_date_iff cal b.year b.month b.day).mp hb
  have hd32 : (cal b.year).getD (b.month - 1) 0 ≤ 32 :=
    (monthLen_bounds cal hg b.year (b.month - 1) hy1 hy2 (by omega)).2
  have hpow4 : (10 : Nat) ^ 4 = 10000 := by norm_num
  have hpow2 : (10 : Nat) ^ 2 = 100 := by norm_num
  rw [format_iso cal style b,
    parse_iso_template cal _ _ _
      (fmt0_len 4 b.year (by rw [hpow4]; omega))
      (fmt0_len 2 b.month (by rw [hpow2]; omega))
      (fmt0_len 2 b.day (by rw [hpow2]; omega))
      (fmt0_digits 4 b.year) (fmt0_digits 2 b.month) (fmt0_digits 2 b.day),
    parseNat_fmt0, parseNat_fmt0, parseNat_fmt0]
  unfold BSDateTime.mk?
  rw [if_pos hb, if_neg (by omega), if_neg (by omega), if_neg (by omega),
    if_neg (by omega)]

theorem C7_iso_roundtrip_witness :
    parse_bs_datetime mcal
        (format_bs_datetime mcal (.date ⟨2080, 10, 24⟩) "%Y-%m-%d".toList
          "formal".toList)
        "%Y-%m-%d".toList
      = .ok ⟨2080, 10, 24, 0, 0, 0, 0, none⟩ :=
  C7_iso_roundtrip mcal goodTable_mcal ⟨2080, 10, 24⟩ (by decide) "formal".toList

/-! Character-class facts and normalization identity used to drive the
auto-detect pattern loop on a symbolic `YY-MM-DD` input. -/

theorem digit_not_space {c : Char} (h : isDigitChar c = true) : isSpaceChar c = false := by
  simp [isDigitChar] at h
  simp [isSpaceChar]
  omega

theorem digit_ascii {c : Char} (h : isDigitChar c = true) : c.toNat < 128 := by
  simp [isDigitChar] at h
  omega

theorem digit_not_alpha {c : Char} (h : isDigitChar c = true) : isAlphaEn c = false := by
  simp [isDigitChar] at h
  simp [isAlphaEn]
  omega

theorem arabChar_ascii {c : Char} (h : c.toNat < 128) : arabChar c = c := by
  unfold arabChar
  split_ifs with h1 h2 h3 h4 h5 h6 h7 h8 h9 h10 <;>
    first
    | rfl
    | (subst_vars; exact absurd h (by decide))

theorem dropWhile_no_space (l : Str) (h : ∀ c ∈ l, isSpaceChar c = false) :
    l.dropWhile isSpaceChar = l := by
  cases l with
  | nil => rfl
  | cons c r =>
    rw [List.dropWhile_cons, h c (List.mem_cons_self c r), if_neg Bool.false_ne_true]

theorem pyStrip_no_space (s : Str) (h : ∀ c ∈ s, isSpaceChar c = false) :
    pyStrip s = s := by
  unfold pyStrip
  rw [dropWhile_no_space s h,
    dropWhile_no_space s.reverse (fun c hc => h c (List.mem_reverse.mp hc)),
    List.reverse_reverse]

theorem normalize_id (s : Str) (h1 : ∀ c ∈ s, isSpaceChar c = false)
    (h2 : ∀ c ∈ s, c.toNat < 128) : normalizeInput s = s := by
  unfold normalizeInput from_devanagari
  rw [pyStrip_no_space s h1,
    List.map_congr_left fun c hc => arabChar_ascii (h2 c hc),
    List.map_id']

/-! Elementary matcher computations on cons-shaped inputs. -/

theorem digits4_none_third (c1 c2 c3 : Char) (r : Str)
    (h : isDigitChar c3 = false) : digits4 (c1 :: c2 :: c3 :: r) = none := by
  cases r with
  | nil => rfl
  | cons c4 r' => simp [digits4, h]

theorem digits12_two (c1 c2 : Char) (r : Str) (h1 : isDigitChar c1 = true)
    (h2 : isDigitChar c2 = true) : digits12 (c1 :: c2 :: r) = some ([c1, c2], r) := by
  simp [digits12, h1, h2]

theorem digits12_one (c1 c2 : Char) (r : Str) (h1 : isDigitChar c1 = true)
    (h2 : isDigitChar c2 = false) :
    digits12 (c1 :: c2 :: r) = some ([c1], c2 :: r) := by
  simp [digits12, h1, h2]

theorem digits12_single (c1 : Char) (h1 : isDigitChar c1 = true) :
    digits12 [c1] = some ([c1], []) := by
  simp [digits12, h1]

theorem ws1_none (c : Char) (r : Str) (h : isSpaceChar c = false) :
    ws1 (c :: r) = none := by
  simp [ws1, h]

theorem alpha1_none (c : Char) (r : Str) (h : isAlphaEn c = false) :
    alpha1 (c :: r) = none := by
  simp [alpha1, h]

theorem nonDigitSpace1_none (c : Char) (r : Str) (h : isDigitChar c = true) :
    nonDigitSpace1 (c :: r) = none := by
  simp [nonDigitSpace1, h]

theorem matchSep_some (c : Char) (r : Str) (h : c = '-' ∨ c = '/') :
    matchSep (c :: r) = some r := by
  rcases h with rfl | rfl <;> rfl

theorem digits12_before_nondigit (M : Str) (c : Char) (r : Str)
    (hM : M.length = 1 ∨ M.length = 2) (hd : ∀ x ∈ M, isDigitChar x = true)
    (hc : isDigitChar c = false) : digits12 (M ++ c :: r) = some (M, c :: r) := by
  rcases hM with h | h
  · obtain ⟨m0, rfl⟩ := List.length_eq_one.mp h
    simpa using digits12_one m0 c r (hd m0 (by simp)) hc
  · obtain ⟨m0, m1, rfl⟩ := List.length_eq_two.mp h
    simpa using digits12_two m0 m1 (c :: r) (hd m0 (by simp)) (hd m1 (by simp))

theorem digits12_exact (D : Str) (hD : D.length = 1 ∨ D.length = 2)
    (hd : ∀ x ∈ D, isDigitChar x = true) : digits12 D = some (D, []) := by
  rcases hD with h | h
  · obtain ⟨d0, rfl⟩ := List.length_eq_one.mp h
    exact digits12_single d0 (hd d0 (by simp))
  · obtain ⟨d0, d1, rfl⟩ := List.length_eq_two.mp h
    exact digits12_two d0 d1 [] (hd d0 (by simp)) (hd d1 (by simp))

/-- The `short_year` regex on a symbolic `YY‐sep‐M(M)‐sep‐D(D)` string:
matches and captures the three numeric groups. -/
theorem matchShortYearPat_eq (y1 y2 s1 s2 : Char) (M D : Str)
    (hy1 : isDigitChar y1 = true) (hy2 : isDigitChar y2 = true)
    (hs1 : s1 = '-' ∨ s1 = '/') (hs2 : s2 = '-' ∨ s2 = '/')
    (hMl : M.length = 1 ∨ M.length = 2) (hDl : D.length = 1 ∨ D.length = 2)
    (hMd : ∀ x ∈ M, isDigitChar x = true) (hDd : ∀ x ∈ D, isDigitChar x = true) :
    matchShortYearPat (y1 :: y2 :: s1 :: (M ++ s2 :: D))
      = some (parseNat [y1, y2], parseNat M, parseNat D) := by
  have hs2d : isDigitChar s2 = false := by rcases hs2 with rfl | rfl <;> decide
  have e1 : digits2 (y1 :: y2 :: s1 :: (M ++ s2 :: D))
      = some ([y1, y2], s1 :: (M ++ s2 :: D)) := by simp [digits2, hy1, hy2]
  have e2 : matchSep (s1 :: (M ++ s2 :: D)) = some (M ++ s2 :: D) :=
    matchSep_some s1 _ hs1
  have e3 : digits12 (M ++ s2 :: D) = some (M, s2 :: D) :=
    digits12_before_nondigit M s2 D hMl hMd hs2d
  have e4 : matchSep (s2 :: D) = some D := matchSep_some s2 _ hs2
  have e5 : digits12 D = some (D, []) := digits12_exact D hDl hDd
  unfold matchShortYearPat
  simp only [e1, Option.some_bind, e2, e3, e4, e5, if_true]

/-- C10: the auto-detect parser's 2-digit-year shape (`YY-MM-DD` or
`YY/MM/DD`, months and days of one or two digits) resolves the century by
a split at 50 — the parsed BS year is `2000 + y` for `y < 50` and
`1900 + y` for `y ≥ 50` (none of the six earlier patterns can match such
an input, so the `short_year` branch decides) — whereas the format-parse
engine's `%y` code always adds 2000 to the captured 2-digit year. -/
theorem C10_short_year_century (cal : Calendar) (y1 y2 s1 s2 : Char) (M D : Str)
    (hy1 : isDigitChar y1 = true) (hy2 : isDigitChar y2 = true)
    (hs1 : s1 = '-' ∨ s1 = '/') (hs2 : s2 = '-' ∨ s2 = '/')
    (hMl : M.length = 1 ∨ M.length = 2) (hDl : D.length = 1 ∨ D.length = 2)
    (hMd : ∀ x ∈ M, isDigitChar x = true) (hDd : ∀ x ∈ D, isDigitChar x = true)
    (hv : is_valid_bs_date cal
        (if parseNat [y1, y2] < 50 then 2000 + parseNat [y1, y2]
         else 1900 + parseNat [y1, y2]) (parseNat M) (parseNat D) = true)
    (yy mm dd : Nat) (hyy : yy < 100) (hmm : mm < 100) (hdd : dd < 100) :
    parse cal (y1 :: y2 :: s1 :: (M ++ s2 :: D))
        = .ok (.date ⟨(if parseNat [y1, y2] < 50 then 2000 + parseNat [y1, y2]
            else 1900 + parseNat [y1, y2]), parseNat M, parseNat D⟩)
      ∧ parse_bs_datetime cal (fmt0 2 yy ++ '-' :: (fmt0 2 mm ++ '-' :: fmt0 2 dd))
          "%y-%m-%d".toList
        = BSDateTime.mk? cal (2000 + yy) mm dd 0 0 0 0 none := by
  constructor
  · have hs1sp : isSpaceChar s1 = false := by rcases hs1 with rfl | rfl <;> decide
    have hs1d : isDigitChar s1 = false := by rcases hs1 with rfl | rfl <;> decide
    have hns1 : ∀ c ∈ (y1 :: y2 :: s1 :: (M ++ s2 :: D)), isSpaceChar c = false := by
      intro c hc
      simp only [List.mem_cons, List.mem_append] at hc
      rcases hc with rfl | rfl | rfl | h | rfl | h
      · exact digit_not_space hy1
      · exact digit_not_space hy2
      · exact hs1sp
      · exact digit_not_space (hMd c h)
      · rcases hs2 with rfl | rfl <;> decide
      · exact digit_not_space (hDd c h)
    have hns2 : ∀ c ∈ (y1 :: y2 :: s1 :: (M ++ s2 :: D)), c.toNat < 128 := by
      intro c hc
      simp only [List.mem_cons, List.mem_append] at hc
      rcases hc with rfl | rfl | rfl | h | rfl | h
      · exact digit_ascii hy1
      · exact digit_ascii hy2
      · rcases hs1 with rfl | rfl <;> decide
      · exact digit_ascii (hMd c h)
      · rcases hs2 with rfl | rfl <;> decide
      · exact digit_ascii (hDd c h)
    have h1 : tryDatetime cal (y1 :: y2 :: s1 :: (M ++ s2 :: D)) = none := by
      unfold tryDatetime matchDatetimePat
      rw [digits4_none_third y1 y2 s1 _ hs1d]
      rfl
    have h2 : tryDate cal (y1 :: y2 :: s1 :: (M ++ s2 :: D)) = none := by
      unfold tryDate matchDatePat
      rw [digits4_none_third y1 y2 s1 _ hs1d]
      rfl
    have h3 : tryNamedEn cal (y1 :: y2 :: s1 :: (M ++ s2 :: D)) = none := by
      unfold tryNamedEn matchNamedEnPat
      rw [alpha1_none y1 _ (digit_not_alpha hy1)]
      rfl
    have h4 : tryNamedNe cal (y1 :: y2 :: s1 :: (M ++ s2 :: D)) = none := by
      unfold tryNamedNe matchNamedNePat
      rw [nonDigitSpace1_none y1 _ hy1]
      rfl
    have h5 : tryDayMonthYear cal (y1 :: y2 :: s1 :: (M ++ s2 :: D)) = none := by
      unfold tryDayMonthYear matchDayMonthYearPat
      simp only [digits12_two y1 y2 _ hy1 hy2, Option.some_bind,
        ws1_none s1 _ hs1sp, Option.none_bind]
    have h6 : tryAmpm cal (y1 :: y2 :: s1 :: (M ++ s2 :: D)) = none := by
      unfold tryAmpm matchAmpmPat
      rw [digits4_none_third y1 y2 s1 _ hs1d]
      rfl
    have h7 : tryShortYear cal (y1 :: y2 :: s1 :: (M ++ s2 :: D))
        = some (.date ⟨(if parseNat [y1, y2] < 50 then 2000 + parseNat [y1, y2]
            else 1900 + parseNat [y1, y2]), parseNat M, parseNat D⟩) := by
      unfold tryShortYear BSDate.mk?
      simp only [matchShortYearPat_eq y1 y2 s1 s2 M D hy1 hy2 hs1 hs2 hMl hDl hMd hDd,
        Option.some_bind]
      rw [if_pos hv, if_pos hv]
    unfold parse
    rw [normalize_id _ hns1 hns2]
    simp only [autoPatterns, firstSome, h1, h2, h3, h4, h5, h6, h7]
  · have hpow2 : (10 : Nat) ^ 2 = 100 := by norm_num
    rw [parse_shortyear_template cal _ _ _
        (fmt0_len 2 yy (by rw [hpow2]; omega))
        (fmt0_len 2 mm (by rw [hpow2]; omega))
        (fmt0_len 2 dd (by rw [hpow2]; omega))
        (fmt0_digits 2 yy) (fmt0_digits 2 mm) (fmt0_digits 2 dd),
      parseNat_fmt0, parseNat_fmt0, parseNat_fmt0]

theorem C10_short_year_century_witness :
    parse mcal ('7' :: '9' :: '-' :: (['0', '2'] ++ '-' :: ['1', '5']))
        = .ok (.date ⟨(if parseNat ['7', '9'] < 50 then 2000 + parseNat ['7', '9']
            else 1900 + parseNat ['7', '9']), parseNat ['0', '2'], parseNat ['1', '5']⟩)
      ∧ parse_bs_datetime mcal (fmt0 2 79 ++ '-' :: (fmt0 2 2 ++ '-' :: fmt0 2 15))
          "%y-%m-%d".toList
        = BSDateTime.mk? mcal (2000 + 79) 2 15 0 0 0 0 none :=
  C10_short_year_century mcal '7' '9' '-' '-' ['0', '2'] ['1', '5']
    (by decide) (by decide) (Or.inl rfl) (Or.inl rfl) (Or.inr rfl) (Or.inr rfl)
    (by decide) (by decide) (by decide) 79 2 15 (by decide) (by decide) (by decide)

example : refAdOrdinal = 673243 := by decide
example : gregToOrdinal 2024 2 6 = 738922 := by decide
example : gregFromOrdinal 738922 = (2024, 2, 6) := by decide
example : maxOrdinal mcal = 109211 := by decide
example : ad_to_bs mcal 1844 4 11 = .ok (1901, 1, 1) := by decide
example : ad_to_bs mcal 2024 2 6 = .ok (2080, 10, 24) := by decide
example : bs_to_ad mcal 2080 10 24 = .ok (2024, 2, 6) := by decide

end Nepalify
